import Mathlib

/-!
# Verification of the ScamShield rule-based scam analyzer

This file is a shallow embedding, in Lean 4, of the rule-based scam
detection engine (`detectInputType`, `detectLanguage`, `normalizeInput`,
`extractUrls`, `extractPhones`, `analyzeMessage`, `analyzeUrl`,
`analyzePhone`, `calculateRiskLevel`, `generateFallbackExplanation`,
`analyze`) and of the API route dispatch, together with proofs of the
behavioural properties stated in the specification.

Modelling conventions:
* Text is represented as `List Char` (`Str`); JavaScript strings are
  UTF-16 but every operation used by the engine acts per code point, and
  all code points involved lie in the BMP, so the two views agree.
* JavaScript numbers are modelled as `Nat`: every contribution the engine
  adds is a positive integer constant, so scores never leave ℕ.
  `calculateRiskLevel` alone is modelled on `Int`, since its argument is
  an arbitrary number in the source.
* Regular expressions are embedded via an explicit abstract syntax tree
  `RE` and an executable backtracking matcher `mrun` that reproduces the
  JavaScript semantics used by the engine: leftmost match, greedy
  quantifiers, left-first alternation, ASCII `\w` word boundaries, and
  `.` not matching a newline.  The single back-reference regex of the
  source (`(\d)\1{4,}`) is translated to a dedicated function.
-/

namespace ScamShield

/-- Character list, the representation of the JavaScript strings the engine
manipulates. -/
abbrev Str : Type := List Char

/-- Convert a Lean string literal to `Str`. -/
def str (s : String) : Str := s.data

-- ============================================
-- Character helpers (JavaScript semantics)
-- ============================================

/-- JavaScript `\w` (word character): ASCII letter, digit or underscore. -/
def isWordChar (c : Char) : Bool :=
  (('a' ≤ c && c ≤ 'z') || ('A' ≤ c && c ≤ 'Z') || ('0' ≤ c && c ≤ '9') || c = '_')

/-- ASCII decimal digit, JavaScript `\d`. -/
def isDigitChar (c : Char) : Bool := '0' ≤ c && c ≤ '9'

/-- JavaScript `\s` whitespace class, restricted to the ASCII whitespace
characters that can occur in the analysed inputs. -/
def isSpaceChar (c : Char) : Bool :=
  c = ' ' || c = '\t' || c = '\n' || c = '\r' || c = '\x0b' || c = '\x0c'

/-- ASCII lower-casing of one character; `String.prototype.toLowerCase`
restricted to the ASCII range (it is the identity on every non-ASCII
character appearing in the engine's patterns and inputs). -/
def lowerChar (c : Char) : Char :=
  if 'A' ≤ c && c ≤ 'Z' then Char.ofNat (c.toNat + 32) else c

/-- ASCII lower-casing of a string (`toLowerCase`). -/
def lowerStr (s : Str) : Str := s.map lowerChar

-- ============================================
-- Regular-expression engine
-- ============================================

/-- Abstract syntax of the regular expressions used by the engine.
`cls neg chars ranges` is a character class (`[...]`, negated when `neg`);
`rep r lo hi` is the greedy counted repetition `r{lo,hi}` (`hi = none`
meaning unbounded); `wb` is the word boundary `\b`; `anyc` is `.`. -/
inductive RE : Type where
  | eps : RE
  | lit : Char → RE
  | cls : Bool → List Char → List (Char × Char) → RE
  | anyc : RE
  | seq : RE → RE → RE
  | alt : RE → RE → RE
  | rep : RE → Nat → Option Nat → RE
  | wb : RE
deriving DecidableEq

/-- Does character `c` belong to the class? -/
def clsMatch (neg : Bool) (chars : List Char) (ranges : List (Char × Char)) (c : Char) : Bool :=
  let m := chars.contains c || ranges.any (fun r => r.1 ≤ c && c ≤ r.2)
  if neg then !m else m

/-- One backtracking state: the previously consumed character (`none` at the
start of the subject) and the remaining input. -/
abbrev MState : Type := Option Char × List Char

/-- The matcher at exhausted fuel: repetitions no longer unfold (a
repetition with a zero minimum degenerates to the empty match); all other
constructors behave as in `mrunSucc`. -/
def mrunZero : RE → Option Char → List Char → List MState
  | .eps, p, s => [(p, s)]
  | .lit _, _, [] => []
  | .lit c, _, x :: xs => if x = c then [(some x, xs)] else []
  | .cls _ _ _, _, [] => []
  | .cls n ch rg, _, x :: xs => if clsMatch n ch rg x then [(some x, xs)] else []
  | .anyc, _, [] => []
  | .anyc, _, x :: xs => if x = '\n' then [] else [(some x, xs)]
  | .seq a b, p, s => (mrunZero a p s).flatMap (fun st => mrunZero b st.1 st.2)
  | .alt a b, p, s => mrunZero a p s ++ mrunZero b p s
  | .wb, p, s =>
      let l := match p with | some c => isWordChar c | none => false
      let r := match s with | c :: _ => isWordChar c | [] => false
      if l != r then [(p, s)] else []
  | .rep _ lo _, p, s => if lo = 0 then [(p, s)] else []

/-- One fuel level of the matcher: `rec` is the matcher at the next smaller
fuel, used for each unfolding of a repetition. -/
def mrunSucc (rec : RE → Option Char → List Char → List MState) :
    RE → Option Char → List Char → List MState
  | .eps, p, s => [(p, s)]
  | .lit _, _, [] => []
  | .lit c, _, x :: xs => if x = c then [(some x, xs)] else []
  | .cls _ _ _, _, [] => []
  | .cls n ch rg, _, x :: xs => if clsMatch n ch rg x then [(some x, xs)] else []
  | .anyc, _, [] => []
  | .anyc, _, x :: xs => if x = '\n' then [] else [(some x, xs)]
  | .seq a b, p, s => (mrunSucc rec a p s).flatMap (fun st => mrunSucc rec b st.1 st.2)
  | .alt a b, p, s => mrunSucc rec a p s ++ mrunSucc rec b p s
  | .wb, p, s =>
      let l := match p with | some c => isWordChar c | none => false
      let r := match s with | c :: _ => isWordChar c | [] => false
      if l != r then [(p, s)] else []
  | .rep _ 0 (some 0), p, s => [(p, s)]
  | .rep a 0 hi, p, s =>
      let hi' := hi.map (· - 1)
      ((rec a p s).flatMap (fun st => rec (.rep a 0 hi') st.1 st.2)) ++ [(p, s)]
  | .rep a (lo + 1) hi, p, s =>
      let hi' := hi.map (· - 1)
      (rec a p s).flatMap (fun st => rec (.rep a lo hi') st.1 st.2)

/-- Backtracking matcher.  `mrun fuel re p s` returns, in JavaScript
backtracking order (alternation left first, repetition greedy), the list of
states reachable by matching `re` starting at `(p, s)`.  `fuel` bounds the
number of repetition unfoldings; every repetition body in the embedded
patterns consumes at least one character, so `|s| + 1` fuel is exact. -/
def mrun : Nat → RE → Option Char → List Char → List MState
  | 0 => mrunZero
  | f + 1 => mrunSucc (mrun f)

/-- Unanchored search from successive start positions, tracking the previous
character for `\b`; this is `RegExp.prototype.test`. -/
def testAux (f : Nat) (re : RE) : Option Char → List Char → Bool
  | p, [] => !(mrun f re p []).isEmpty
  | p, c :: rest => !(mrun f re p (c :: rest)).isEmpty || testAux f re (some c) rest

/-- `re.test(s)` for an unanchored JavaScript regular expression. -/
def reTest (re : RE) (s : Str) : Bool :=
  testAux (List.length s + 1) re none s

/-- Anchored test: the pattern must match at the start of the subject (used
for the `^...` patterns of `detectInputType`). -/
def reTestAnchored (re : RE) (s : Str) : Bool :=
  !(mrun (List.length s + 1) re none s).isEmpty

/-- Global matching (`String.prototype.match` with the `g` flag): repeatedly
take the leftmost match — the head of the backtracking order — emit the
matched substring, and resume after it; a position with no match advances by
one character. -/
def matchAllAux (f : Nat) (re : RE) : Nat → Option Char → List Char → List Str
  | 0, _, _ => []
  | _ + 1, _, [] =>
      []
  | fuel + 1, p, c :: cs =>
      match (mrun f re p (c :: cs)).head? with
      | some (p', rest) =>
          let n := (c :: cs).length - rest.length
          if n = 0 then matchAllAux f re fuel (some c) cs
          else (c :: cs).take n :: matchAllAux f re fuel p' rest
      | none => matchAllAux f re fuel (some c) cs

/-- `s.match(re) || []` for a global regular expression. -/
def reMatchAll (re : RE) (s : Str) : List Str :=
  matchAllAux (List.length s + 1) re (List.length s + 1) none s

-- Constructors for transcribing the source regexes.

/-- Literal string pattern. -/
def rstr (s : String) : RE := s.data.foldr (fun c r => RE.seq (RE.lit c) r) RE.eps

/-- Concatenation of a list of patterns. -/
def rcat (rs : List RE) : RE := rs.foldr RE.seq RE.eps

/-- Alternation (left to right) of a list of patterns. -/
def raltl : List RE → RE
  | [] => RE.cls false [] []    -- unmatchable; never used on []
  | [r] => r
  | r :: rest => RE.alt r (raltl rest)

/-- Alternation of literal strings, `(w1|w2|...)`. -/
def ralts (ss : List String) : RE := raltl (ss.map rstr)

/-- `c?` — an optional literal character. -/
def ropt (c : Char) : RE := RE.rep (RE.lit c) 0 (some 1)

/-- `\s` as a class. -/
def wsCls : RE := RE.cls false [' ', '\t', '\n', '\r', '\x0b', '\x0c'] []

/-- `[^\s]` as a class. -/
def notWsCls : RE := RE.cls true [' ', '\t', '\n', '\r', '\x0b', '\x0c'] []

/-- `\d` as a class. -/
def digitCls : RE := RE.cls false [] [('0', '9')]

/-- `.{lo,hi}` — a bounded gap of arbitrary non-newline characters. -/
def rgap (lo hi : Nat) : RE := RE.rep RE.anyc lo (some hi)

/-- The apostrophe character (U+0027). -/
def apos : Char := Char.ofNat 39

-- ============================================
-- Data model (TYPES section of the source)
-- ============================================

/-- `'safe' | 'suspicious' | 'high_risk'`. -/
inductive RiskLevel : Type where
  | safe : RiskLevel
  | suspicious : RiskLevel
  | high_risk : RiskLevel
deriving DecidableEq

/-- One entry of `details`: `{ rule: string; flag: string; points: number }`. -/
structure Detail : Type where
  rule : String
  flag : String
  points : Nat
deriving DecidableEq

/-- `AnalysisResult` of the source.  `embeddedUrls` / `embeddedPhones` are
optional fields, present only on message analysis. -/
structure AnalysisResult : Type where
  riskScore : Nat
  riskLevel : RiskLevel
  flags : List String
  details : List Detail
  embeddedUrls : Option (List Str) := none
  embeddedPhones : Option (List Str) := none

/-- `FullAnalysisResult` of the source.  `inputType` is a `String` because at
runtime the `analyze` dispatcher passes the caller's value through without
validating it against the declared union type. -/
structure FullAnalysisResult : Type where
  analysis : AnalysisResult
  inputType : String
  language : String
  explanation : String
  disclaimer : String

/-- `calculateRiskLevel`:
`score <= 30 → 'safe'`, `score <= 60 → 'suspicious'`, else `'high_risk'`. -/
def calculateRiskLevel (score : Int) : RiskLevel :=
  if score ≤ 30 then .safe
  else if score ≤ 60 then .suspicious
  else .high_risk

-- ============================================
-- String helpers (JavaScript built-ins)
-- ============================================

/-- `String.prototype.trim` (ASCII whitespace). -/
def trimStr (s : Str) : Str :=
  ((s.dropWhile isSpaceChar).reverse.dropWhile isSpaceChar).reverse

/-- Scan for an occurrence of `sub` at each suffix. -/
def containsSubAux (sub : Str) : Str → Bool
  | [] => sub.isEmpty
  | c :: rest => sub.isPrefixOf (c :: rest) || containsSubAux sub rest

/-- `s.includes(sub)`. -/
def containsSub (s sub : Str) : Bool := containsSubAux sub s

/-- `s.startsWith(p)`. -/
def startsWithS (s p : Str) : Bool := p.isPrefixOf s

/-- `s.endsWith(p)`. -/
def endsWithS (s p : Str) : Bool := p.isSuffixOf s

/-- `s.split(sep)` for a one-character separator. -/
def splitChar (sep : Char) (s : Str) : List Str := s.splitOn sep

-- ============================================
-- INPUT HANDLER
-- ============================================

/-- The anchored URL-shape pattern of `detectInputType`:
`/^https?:\/\/[^\s]+|^www\.[^\s]+|^[a-zA-Z0-9-]+\.(com|org|net|xyz|top|click|info|co|in|io|ly|tk|ml|ga|cf|gq|bit\.ly|tinyurl)/i`.
The `i` flag is realised by testing the lower-cased subject: every literal in
the pattern is lower case and its classes are closed under case. -/
def detectUrlRE : RE :=
  raltl [
    rcat [rstr "http", ropt 's', rstr "://", RE.rep notWsCls 1 none],
    rcat [rstr "www.", RE.rep notWsCls 1 none],
    rcat [RE.rep (RE.cls false ['-'] [('a', 'z'), ('0', '9')]) 1 none, RE.lit '.',
          ralts ["com", "org", "net", "xyz", "top", "click", "info", "co", "in", "io",
                 "ly", "tk", "ml", "ga", "cf", "gq", "bit.ly", "tinyurl"]]]

/-- The phone-shape test of `detectInputType`:
`/^[+]?[0-9\s\-()]{10,}$/` applied to `trimmed.replace(/\s/g, '')`. -/
def phoneShapeTest (s : Str) : Bool :=
  let t := s.filter (fun c => !isSpaceChar c)
  let u := match t with
    | c :: rest => if c = '+' then rest else t
    | [] => t
  u.length ≥ 10 && u.all (fun c => isDigitChar c || isSpaceChar c || c = '-' || c = '(' || c = ')')

/-- `detectInputType` — URL shape first, then phone shape, else message. -/
def detectInputType (text : Str) : String :=
  let trimmed := trimStr text
  if reTestAnchored detectUrlRE (lowerStr trimmed) then "url"
  else if phoneShapeTest trimmed then "phone"
  else "message"

/-- Devanagari block `[ऀ-ॿ]`. -/
def isDevanagari (c : Char) : Bool := 0x0900 ≤ c.toNat && c.toNat ≤ 0x097F

/-- `[a-zA-Z]`. -/
def isLatinLetter (c : Char) : Bool := ('a' ≤ c && c ≤ 'z') || ('A' ≤ c && c ≤ 'Z')

/-- `detectLanguage` — the script-ratio heuristic. -/
def detectLanguage (text : Str) : String :=
  let hindiChars := (text.filter isDevanagari).length
  let englishChars := (text.filter isLatinLetter).length
  if hindiChars + englishChars = 0 then "english"
  else if hindiChars > englishChars then "hindi"
  else if hindiChars > 0 && englishChars > 0 then "hinglish"
  else "english"

/-- `replace(/\s+/g, ' ')` as a single scan: `inRun` records whether the
previous character was part of a whitespace run that has already emitted
its single space. -/
def collapseWsAux : Bool → Str → Str
  | _, [] => []
  | inRun, c :: rest =>
    if isSpaceChar c then
      (if inRun then collapseWsAux true rest else ' ' :: collapseWsAux true rest)
    else c :: collapseWsAux false rest

/-- `replace(/\s+/g, ' ')`: collapse every whitespace run to one space. -/
def collapseWs (s : Str) : Str := collapseWsAux false s

/-- `normalizeInput`: trim, then collapse internal whitespace. -/
def normalizeInput (text : Str) : Str := collapseWs (trimStr text)

/-- Swap the case of an ASCII letter (used to realise the `i` flag). -/
def toggleCase (c : Char) : Char :=
  if 'a' ≤ c && c ≤ 'z' then Char.ofNat (c.toNat - 32)
  else if 'A' ≤ c && c ≤ 'Z' then Char.ofNat (c.toNat + 32)
  else c

/-- Close a class range under ASCII case. -/
def ciRange (r : Char × Char) : List (Char × Char) :=
  if ('a' ≤ r.1 && r.2 ≤ 'z') || ('A' ≤ r.1 && r.2 ≤ 'Z') then
    [r, (toggleCase r.1, toggleCase r.2)]
  else [r]

/-- Close a pattern under ASCII case: the `i` flag of a regular expression
that is matched against a subject of arbitrary case.  (The engine's negated
classes contain only whitespace, where case is irrelevant.) -/
def ciRE : RE → RE
  | .lit c => if toggleCase c = c then .lit c else .cls false [c, toggleCase c] []
  | .cls n ch rg =>
      .cls n (ch.flatMap (fun c => if toggleCase c = c then [c] else [c, toggleCase c]))
             (rg.flatMap ciRange)
  | .seq a b => .seq (ciRE a) (ciRE b)
  | .alt a b => .alt (ciRE a) (ciRE b)
  | .rep a lo hi => .rep (ciRE a) lo hi
  | .eps => .eps
  | .anyc => .anyc
  | .wb => .wb

/-- The extraction pattern of `extractUrls`:
`/https?:\/\/[^\s]+|www\.[^\s]+|bit\.ly\/[^\s]+|tinyurl\.com\/[^\s]+|\b[a-z0-9.-]+\.(com|org|net|in|io|co|xyz|top|click|info|ly|tk|ml|ga|cf|gq)\b/gi`. -/
def extractUrlsRE : RE :=
  raltl [
    rcat [rstr "http", ropt 's', rstr "://", RE.rep notWsCls 1 none],
    rcat [rstr "www.", RE.rep notWsCls 1 none],
    rcat [rstr "bit.ly/", RE.rep notWsCls 1 none],
    rcat [rstr "tinyurl.com/", RE.rep notWsCls 1 none],
    rcat [RE.wb, RE.rep (RE.cls false ['.', '-'] [('a', 'z'), ('0', '9')]) 1 none, RE.lit '.',
          ralts ["com", "org", "net", "in", "io", "co", "xyz", "top", "click", "info",
                 "ly", "tk", "ml", "ga", "cf", "gq"], RE.wb]]

/-- `extractUrls`: all (case-insensitive) matches, in order, duplicates kept. -/
def extractUrls (text : Str) : List Str := reMatchAll (ciRE extractUrlsRE) text

/-- The extraction pattern of `extractPhones`: `/[+]?[0-9]{10,13}/g`. -/
def extractPhonesRE : RE := rcat [ropt '+', RE.rep digitCls 10 (some 13)]

/-- `extractPhones`: matches of the phone pattern over the input with
whitespace and hyphens removed (`text.replace(/[\s\-]/g, '')`). -/
def extractPhones (text : Str) : List Str :=
  reMatchAll extractPhonesRE (text.filter (fun c => !(isSpaceChar c || c = '-')))

-- ============================================
-- MESSAGE ANALYSIS RULES
-- ============================================

/-- `Rule`: a set of alternative patterns, a weight and a flag. -/
structure Rule : Type where
  patterns : List RE
  weight : Nat
  flag : String

/-- `MESSAGE_RULES.urgency`. -/
def urgencyRule : Rule :=
  { patterns := [
      rcat [RE.wb,
        raltl [rstr "urgent", rstr "immediately", rstr "right now", rstr "act now",
               rstr "hurry", rstr "last chance", rstr "limited time",
               rcat [rstr "expire", ropt 's', rstr " today"],
               rcat [rstr "don", ropt apos, rstr "t delay"],
               rstr "final notice", rstr "final warning",
               rcat [rstr "within 24 hour", ropt 's'],
               rcat [rstr "within 2 hour", ropt 's'],
               rstr "action required"],
        RE.wb],
      rcat [RE.wb, ralts ["तुरंत", "अभी", "जल्दी", "आखिरी मौका", "अंतिम चेतावनी", "24 घंटे में"], RE.wb],
      rcat [RE.wb, ralts ["jaldi", "abhi", "turant", "fauran"], RE.wb]],
    weight := 18, flag := "urgency_pressure" }

/-- `MESSAGE_RULES.otp_kyc`. -/
def otpKycRule : Rule :=
  { patterns := [
      rcat [RE.wb, ralts ["otp", "kyc", "verify", "verification", "cvv", "pin", "password",
                          "atm pin", "upi pin", "पासवर्ड"], RE.wb],
      rcat [RE.wb, ralts ["share", "send", "provide", "enter", "batao", "bhejo"],
            rgap 0 20, ralts ["otp", "code", "pin"], RE.wb],
      rcat [RE.wb, ralts ["update", "complete"], rgap 0 15,
            ralts ["kyc", "pan", "aadhar", "aadhaar"], RE.wb],
      rcat [rstr "otp", rgap 0 10, ralts ["hai", "is", "send", "bhej"]]],
    weight := 25, flag := "otp_kyc_request" }

/-- `MESSAGE_RULES.account_threat`. -/
def accountThreatRule : Rule :=
  { patterns := [
      rcat [RE.wb, ralts ["account", "खाता", "a/c"], rgap 0 20,
            ralts ["block", "suspend", "close", "deactivat", "freeze", "बंद", "ब्लॉक", "hold"], RE.wb],
      rcat [RE.wb, ralts ["block", "suspend", "deactivat", "freeze"], rgap 0 20,
            ralts ["account", "खाता", "a/c"], RE.wb],
      rcat [RE.wb, ralts ["service", "card", "upi"], rgap 0 15,
            ralts ["block", "suspend", "stop"], RE.wb],
      rcat [RE.wb, ralts ["legal action", "कानूनी कार्रवाई", "police complaint"], RE.wb]],
    weight := 22, flag := "account_threat" }

/-- `MESSAGE_RULES.lottery_reward`. -/
def lotteryRewardRule : Rule :=
  { patterns := [
      rcat [RE.wb, ralts ["congratulations", "congrats", "winner", "won", "lottery", "prize",
                          "reward", "gift", "cash prize", "इनाम", "जीत", "badhai", "mubarak"], RE.wb],
      rcat [RE.wb, ralts ["claim", "collect", "receive"], rgap 0 20,
            ralts ["prize", "reward", "money", "amount"], RE.wb],
      rcat [RE.wb, ralts ["free", "मुफ्त", "muft"], rgap 0 10,
            ralts ["gift", "iphone", "laptop", "money", "car", "bike"], RE.wb],
      rcat [RE.wb, ralts ["lucky draw", "spin wheel", "scratch card"], RE.wb],
      rcat [RE.wb, ralts ["selected", "chosen"], rgap 0 15, ralts ["winner", "prize"], RE.wb],
      rcat [RE.lit '₹', RE.rep wsCls 0 none, RE.rep digitCls 1 (some 3),
            RE.rep (rcat [RE.lit ',', RE.rep digitCls 3 (some 3)]) 0 none,
            RE.rep wsCls 0 none, ralts ["lakh", "crore", "cr", "lac"]]],
    weight := 25, flag := "lottery_reward_bait" }

/-- `MESSAGE_RULES.job_scam`. -/
def jobScamRule : Rule :=
  { patterns := [
      rcat [RE.wb, ralts ["earn", "income", "salary", "kamai", "kamao"], rgap 0 20,
            raltl [rcat [rstr "lakh", ropt 's'], rcat [rstr "crore", ropt 's'],
                   rstr "per day", rstr "daily", rstr "weekly", rstr "monthly",
                   rstr "ghar baithe"], RE.wb],
      rcat [RE.wb, ralts ["work from home", "wfh", "ghar se kaam"], rgap 0 20,
            ralts ["earn", "income", "money", "kamai"], RE.wb],
      rcat [RE.wb, ralts ["no interview", "direct joining", "immediate joining",
                          "part time job", "typing job"], RE.wb],
      rcat [RE.wb, ralts ["amazon", "flipkart", "meesho"], rgap 0 15,
            ralts ["job", "work", "partner"], RE.wb],
      rcat [RE.wb, rstr "data entry", rgap 0 10, ralts ["job", "work", "earn"]]],
    weight := 22, flag := "suspicious_job_offer" }

/-- `MESSAGE_RULES.authority`. -/
def authorityRule : Rule :=
  { patterns := [
      rcat [RE.wb, ralts ["rbi", "reserve bank", "income tax", "it department", "police",
                          "cyber cell", "customs", "ed", "cbi", "enforcement"], RE.wb],
      rcat [RE.wb, ralts ["sbi", "hdfc", "icici", "axis", "kotak", "pnb", "bob", "canara",
                          "union bank", "paytm", "phonepe", "gpay", "google pay"], RE.wb],
      rcat [RE.wb, ralts ["government", "सरकार", "बैंक", "ministry"], rgap 0 20,
            ralts ["notice", "warning", "alert", "message"], RE.wb],
      rcat [RE.wb, ralts ["customer care", "helpline", "support"], rgap 0 10,
            raltl [rstr "number", rcat [rstr "no", ropt '.']], RE.wb]],
    weight := 18, flag := "authority_impersonation" }

/-- `MESSAGE_RULES.money_request`. -/
def moneyRequestRule : Rule :=
  { patterns := [
      rcat [RE.wb, ralts ["transfer", "send", "pay", "bhejo", "de do"], rgap 0 20,
            ralts ["money", "amount", "rs", "₹", "rupees", "paisa", "paise"], RE.wb],
      rcat [RE.wb, ralts ["processing fee", "registration fee", "advance payment",
                          "token money", "booking amount"], RE.wb],
      rcat [RE.wb, ralts ["pay", "deposit"], rgap 0 15, ralts ["first", "only", "just"],
            rgap 0 10, raltl [rstr "rs", rstr "₹", digitCls]],
      rcat [RE.wb, ralts ["refund", "cashback"], rgap 0 20,
            ralts ["pending", "stuck", "process"], RE.wb],
      rcat [rstr "upi", rgap 0 10, ralts ["id", "address", "transfer"]]],
    weight := 22, flag := "money_request" }

/-- `MESSAGE_RULES.poor_grammar`. -/
def poorGrammarRule : Rule :=
  { patterns := [
      raltl [rstr "!!!", rstr "???", rcat [rstr "...", RE.rep (RE.lit '.') 1 none]],
      rcat [RE.wb, ralts ["plz", "pls", "ur", "u r", "bcoz", "coz", "dis", "dat", "dnt",
                          "2day", "2morrow", "4u", "asap"], RE.wb],
      rcat [rstr "dear", RE.rep wsCls 1 none,
            ralts ["customer", "user", "sir", "madam", "member"]]],
    weight := 10, flag := "poor_grammar" }

/-- `MESSAGE_RULES.embedded_link`. -/
def embeddedLinkRule : Rule :=
  { patterns := [
      rcat [rstr "http", ropt 's', rstr "://", RE.rep notWsCls 1 none],
      ralts ["bit.ly", "tinyurl", "short.link", "t.co", "goo.gl"],
      rcat [rstr "click", RE.rep wsCls 1 none, ralts ["here", "now", "below", "link"]]],
    weight := 12, flag := "contains_link" }

/-- `MESSAGE_RULES.delivery_scam`. -/
def deliveryScamRule : Rule :=
  { patterns := [
      rcat [RE.wb, ralts ["delivery", "courier", "parcel", "package", "shipment"], rgap 0 20,
            ralts ["failed", "pending", "hold", "stuck", "address"], RE.wb],
      rcat [RE.wb, ralts ["bluedart", "delhivery", "dtdc", "fedex", "ecom express",
                          "india post"], rgap 0 15, ralts ["track", "delivery"], RE.wb],
      rcat [rstr "track", rgap 0 10, ralts ["order", "shipment", "parcel"]]],
    weight := 18, flag := "delivery_scam" }

/-- `MESSAGE_RULES.loan_scam`. -/
def loanScamRule : Rule :=
  { patterns := [
      rcat [RE.wb, raltl [rstr "instant loan", rstr "personal loan", rstr "loan approved",
                          rcat [rstr "pre", rgap 0 1, rstr "approved loan"]], RE.wb],
      rcat [RE.wb, rstr "loan", rgap 0 15, ralts ["₹", "rs", "lakh", "crore"], RE.wb],
      rcat [RE.wb, ralts ["no document", "without document", "bina document"], RE.wb],
      rcat [RE.wb, ralts ["low interest", "0% interest", "zero interest"], RE.wb]],
    weight := 20, flag := "loan_scam" }

/-- `MESSAGE_RULES.investment_scam`. -/
def investmentScamRule : Rule :=
  { patterns := [
      rcat [RE.wb, ralts ["invest", "trading", "crypto", "bitcoin", "stock"], rgap 0 15,
            ralts ["earn", "return", "profit", "double"], RE.wb],
      rcat [RE.wb, ralts ["double", "triple"], rgap 0 10,
            ralts ["money", "investment", "amount"], RE.wb],
      rcat [RE.wb, ralts ["guaranteed", "100%", "assured"], rgap 0 10,
            ralts ["return", "profit"], RE.wb],
      rcat [RE.wb, ralts ["forex", "binary option", "mlm", "network marketing"], RE.wb]],
    weight := 25, flag := "investment_scam" }

/-- `MESSAGE_RULES.whatsapp_forward`. -/
def whatsappForwardRule : Rule :=
  { patterns := [
      rcat [RE.wb, ralts ["forward", "share"], rgap 0 15,
            raltl [rstr "10", rstr "20", rstr "100", rcat [rstr "group", ropt 's'],
                   rcat [rstr "contact", ropt 's'], rcat [rstr "friend", ropt 's']], RE.wb],
      rcat [RE.wb, ralts ["whatsapp", "telegram"], rgap 0 10, ralts ["forward", "share"], RE.wb],
      rcat [RE.wb, ralts ["viral", "trending", "breaking"], rgap 0 10,
            ralts ["news", "alert"], RE.wb]],
    weight := 12, flag := "chain_message" }

/-- `MESSAGE_RULES`, in the insertion order iterated by `Object.entries`. -/
def MESSAGE_RULES : List (String × Rule) := [
  ("urgency", urgencyRule), ("otp_kyc", otpKycRule), ("account_threat", accountThreatRule),
  ("lottery_reward", lotteryRewardRule), ("job_scam", jobScamRule), ("authority", authorityRule),
  ("money_request", moneyRequestRule), ("poor_grammar", poorGrammarRule),
  ("embedded_link", embeddedLinkRule), ("delivery_scam", deliveryScamRule),
  ("loan_scam", loanScamRule), ("investment_scam", investmentScamRule),
  ("whatsapp_forward", whatsappForwardRule)]

-- ============================================
-- URL ANALYSIS RULES
-- ============================================

def SUSPICIOUS_TLDS : List Str :=
  [str ".xyz", str ".top", str ".click", str ".info", str ".tk", str ".ml",
   str ".ga", str ".cf", str ".gq", str ".buzz", str ".work", str ".loan"]

def URL_SHORTENERS : List Str :=
  [str "bit.ly", str "tinyurl.com", str "short.link", str "goo.gl", str "t.co",
   str "ow.ly", str "is.gd", str "buff.ly"]

def KNOWN_BRANDS : List Str :=
  [str "google", str "facebook", str "amazon", str "flipkart", str "paytm",
   str "phonepe", str "gpay", str "sbi", str "hdfc", str "icici", str "axis",
   str "netflix", str "whatsapp", str "instagram"]

def SUSPICIOUS_PATH_TOKENS : List Str :=
  [str "verify", str "confirm", str "login", str "secure", str "account",
   str "update", str "bank", str "payment", str "refund", str "prize",
   str "claim", str "click", str "authenticate", str "signin", str "token"]

/-- The character substitutions of `deleet` as a single character map (each
replacement output is a letter, which no later replacement touches, so the
chain of global `replace` calls is exactly this map). -/
def deleetChar (c : Char) : Char :=
  if c = '0' then 'o' else if c = '1' then 'l' else if c = '3' then 'e'
  else if c = '5' then 's' else if c = '4' then 'a' else if c = '7' then 't'
  else if c = '8' then 'b' else c

/-- `deleet`. -/
def deleet (s : Str) : Str := s.map deleetChar

-- ============================================
-- PHONE RULES
-- ============================================

def FOREIGN_CODES : List Str :=
  [str "+1", str "+44", str "+234", str "+233", str "+254", str "+880", str "+92"]

-- ============================================
-- URL parsing (`new URL`)
-- ============================================

/-- The part of `s` strictly before the last occurrence of `c` (all of `s`
when `c` is absent). -/
def dropAfterLast (c : Char) (s : Str) : Str :=
  match s.reverse.dropWhile (fun d => d != c) with
  | [] => s
  | _ :: tail => tail.reverse

/-- The part of `s` strictly after the last occurrence of `c`. -/
def takeAfterLast (c : Char) (s : Str) : Str :=
  (s.reverse.takeWhile (fun d => d != c)).reverse

/-- Model of WHATWG `new URL(u)` restricted to the shapes the engine feeds
it: a literal `http://` or `https://` scheme, then an authority running to
the first `/`, `?` or `#` (userinfo before the last `@` dropped, a `:port`
suffix dropped, hostname ASCII-lowercased), then path, query and fragment.
An input without such a scheme prefix, or whose hostname is empty or
contains whitespace, is a parse failure (`none`), matching the `catch`
branch of the source.  (WHATWG details that cannot arise from the engine's
call sites — scheme case folding, `http:` without slashes, path
normalisation, IPv4/IPv6 host re-serialisation, percent decoding — are not
modelled.)  Returns `(hostname, pathname + search)` as the source uses it. -/
def parseUrl (u : Str) : Option (Str × Str) :=
  let rest? : Option Str :=
    if startsWithS u (str "https://") then some (u.drop 8)
    else if startsWithS u (str "http://") then some (u.drop 7)
    else none
  match rest? with
  | none => none
  | some rest =>
    let auth := rest.takeWhile (fun c => !(c = '/' || c = '?' || c = '#'))
    let after := rest.drop auth.length
    let host0 := if auth.contains '@' then takeAfterLast '@' auth else auth
    let host1 := if host0.contains ':' then dropAfterLast ':' host0 else host0
    let host := lowerStr host1
    if host = [] || host.any isSpaceChar then none
    else
      let afterNoFrag := after.takeWhile (fun c => c != '#')
      let pathPart := afterNoFrag.takeWhile (fun c => c != '?')
      let queryPart := afterNoFrag.dropWhile (fun c => c != '?')
      let pathname := if pathPart = [] then str "/" else pathPart
      let search := if queryPart = [] || queryPart = ['?'] then ([] : Str) else queryPart
      some (host, pathname ++ search)

/-- The domain/path extraction of `analyzeUrl`: parse
`url.startsWith('http') ? url : 'http://' + url`; on failure fall back to
`url.split('/')[0]` as the domain with an empty path. -/
def getDomainPath (url : Str) : Str × Str :=
  let u := if startsWithS url (str "http") then url else str "http://" ++ url
  match parseUrl u with
  | some hp => hp
  | none => (url.takeWhile (fun c => c != '/'), [])

-- ============================================
-- ANALYZERS
-- ============================================

/-- The running accumulator of one analyzer call: `riskScore`, `flags`,
`details` before clamping. -/
structure AccState : Type where
  score : Nat
  flags : List String
  details : List Detail
deriving DecidableEq

def initAcc : AccState := ⟨0, [], []⟩

/-- Add points and record the flag and its detail entry. -/
def pushHit (st : AccState) (rule flag : String) (pts : Nat) : AccState :=
  ⟨st.score + pts, st.flags ++ [flag], st.details ++ [⟨rule, flag, pts⟩]⟩

/-- One additive check of the source: a condition together with the rule
name, flag and points of its `if (...) { riskScore += ...; flags.push(...);
details.push(...) }` block. -/
abbrev Check : Type := Bool × String × String × Nat

/-- Run a sequence of additive checks in order. -/
def applyChecks (cs : List Check) (st : AccState) : AccState :=
  cs.foldl (fun st c => if c.1 then pushHit st c.2.1 c.2.2.1 c.2.2.2 else st) st

/-- Build the clamped `AnalysisResult` from an accumulator
(`Math.min(riskScore, 100)` and the risk level derived from it). -/
def finishAcc (st : AccState) : AnalysisResult :=
  { riskScore := min st.score 100,
    riskLevel := calculateRiskLevel (Int.ofNat (min st.score 100)),
    flags := st.flags, details := st.details }

/-- `/https?:\/\/\d{1,3}\.\d{1,3}\.\d{1,3}\.\d{1,3}/` — the (unanchored)
IP-form test of `analyzeUrl`, applied to the lower-cased URL. -/
def ipUrlRE : RE :=
  rcat [rstr "http", ropt 's', rstr "://",
        RE.rep digitCls 1 (some 3), RE.lit '.', RE.rep digitCls 1 (some 3), RE.lit '.',
        RE.rep digitCls 1 (some 3), RE.lit '.', RE.rep digitCls 1 (some 3)]

/-- `/[a-z0-9]{15,}/` — the random-string test of `analyzeUrl`. -/
def randomRunRE : RE := RE.rep (RE.cls false [] [('a', 'z'), ('0', '9')]) 15 none

/-- `[brand + '.com', brand + '.in', brand + '.co.in', brand + '.org']`
and the official-domain test `od => domain.endsWith(od) || domain === od`. -/
def isOfficialBrand (brand domain : Str) : Bool :=
  [brand ++ str ".com", brand ++ str ".in", brand ++ str ".co.in", brand ++ str ".org"].any
    (fun od => endsWithS domain od || domain = od)

/-- The brand-spoofing loop of `analyzeUrl`: for each known brand in order,
if the domain contains the brand directly or after `deleet`, and the domain
is not official for that brand, stop and report spoofing; an official match
moves on to the next brand.  (`brand.toLowerCase()` is the identity: every
entry of `KNOWN_BRANDS` is lower case.) -/
def brandSpoofed : List Str → Str → Bool
  | [], _ => false
  | b :: rest, domain =>
    if containsSub domain b || containsSub (deleet domain) b then
      if isOfficialBrand b domain then brandSpoofed rest domain else true
    else brandSpoofed rest domain

/-- One iteration of the suspicious-path-token loop: `+12` for every token
contained in `combinedPath`, the flag and detail recorded only once. -/
def pathTokenStep (combinedPath : Str) (st : AccState) (tok : Str) : AccState :=
  if containsSub combinedPath tok then
    if st.flags.contains "suspicious_path_token" then
      ⟨st.score + 12, st.flags, st.details⟩
    else pushHit st "suspicious_path" "suspicious_path_token" 12
  else st

/-- `/[^a-z0-9.-]/i.test(domain)`. -/
def hasWeirdChar (domain : Str) : Bool :=
  domain.any (fun c =>
    !(('a' ≤ c && c ≤ 'z') || ('A' ≤ c && c ≤ 'Z') || ('0' ≤ c && c ≤ '9') || c = '.' || c = '-'))

/-- `domain` as computed by `analyzeUrl` for its input. -/
def urlDomain (url : Str) : Str := (getDomainPath url).1

/-- `pathname` (path + search) as computed by `analyzeUrl` for its input. -/
def urlPath (url : Str) : Str := (getDomainPath url).2

/-- `const combinedPath = (pathname || '') + ' ' + urlLower`. -/
def combinedPathOf (url : Str) : Str := urlPath url ++ [' '] ++ lowerStr url

/-- Condition of the IP-based check. -/
def urlCondIp (url : Str) : Bool := reTest ipUrlRE (lowerStr url)

/-- Condition of the punycode check: `domain.includes('xn--')`. -/
def urlCondPuny (url : Str) : Bool := containsSub (urlDomain url) (str "xn--")

/-- Condition of the userinfo check: `/@/.test(urlLower)`. -/
def urlCondUser (url : Str) : Bool := (lowerStr url).contains '@'

/-- Condition of the plain-HTTP check. -/
def urlCondNoHttps (url : Str) : Bool :=
  startsWithS (lowerStr url) (str "http://") && !startsWithS (lowerStr url) (str "https://")

/-- Condition of the suspicious-TLD check (the loop `break`s at the first
matching TLD, so firing is existence of a match). -/
def urlCondTld (url : Str) : Bool := SUSPICIOUS_TLDS.any (fun t => endsWithS (urlDomain url) t)

/-- Condition of the URL-shortener check (first match only). -/
def urlCondShort (url : Str) : Bool :=
  URL_SHORTENERS.any (fun sh => containsSub (urlDomain url) sh)

/-- Condition of the brand-spoofing check. -/
def urlCondBrand (url : Str) : Bool := brandSpoofed KNOWN_BRANDS (urlDomain url)

/-- Condition of the subdomain-count check:
`domain.split('.').length - 2 >= 3`. -/
def urlCondSub (url : Str) : Bool := (splitChar '.' (urlDomain url)).length - 2 ≥ 3

/-- Condition of the long-URL check: `url.length > 100`. -/
def urlCondLong (url : Str) : Bool := url.length > 100

/-- Condition of the random-string check. -/
def urlCondRandom (url : Str) : Bool := reTest randomRunRE (lowerStr url)

/-- The first seven additive checks of `analyzeUrl` (before the
suspicious-path-token loop), in source order. -/
def urlChecksA (url : Str) : List Check := [
  (urlCondIp url, "ip_based", "ip_based_url", 25),
  (urlCondPuny url, "punycode", "punycode_domain", 20),
  (urlCondUser url, "userinfo", "userinfo_in_url", 18),
  (urlCondNoHttps url, "no_https", "no_https", 8),
  (urlCondTld url, "suspicious_tld", "suspicious_tld", 18),
  (urlCondShort url, "shortener", "url_shortener", 15),
  (urlCondBrand url, "brand_spoof", "brand_spoofing", 22)]

/-- The three additive checks of `analyzeUrl` after the path-token loop. -/
def urlChecksB (url : Str) : List Check := [
  (urlCondSub url, "many_subdomains", "excessive_subdomains", 12),
  (urlCondLong url, "long_url", "suspicious_long_url", 10),
  (urlCondRandom url, "random_string", "random_string_url", 12)]

/-- The final minimal-caution check of `analyzeUrl`: only when no flag was
added yet, the domain is non-empty (truthy) and has at least two labels,
score a weird character in the domain. -/
def weirdStep (domain : Str) (st : AccState) : AccState :=
  if st.flags = [] ∧ domain ≠ [] ∧ (splitChar '.' domain).length ≥ 2 then
    (if hasWeirdChar domain then pushHit st "weird_chars" "weird_domain_chars" 6 else st)
  else st

/-- The accumulator of `analyzeUrl` before clamping: the additive checks in
source order, the path-token loop between the brand check and the
subdomain check, and the weird-character check last. -/
def analyzeUrlSteps (url : Str) : AccState :=
  weirdStep (urlDomain url)
    (applyChecks (urlChecksB url)
      (SUSPICIOUS_PATH_TOKENS.foldl (pathTokenStep (combinedPathOf url))
        (applyChecks (urlChecksA url) initAcc)))

/-- `analyzeUrl`. -/
def analyzeUrl (url : Str) : AnalysisResult := finishAcc (analyzeUrlSteps url)

/-- `(\d)\1{4,}`: some digit followed by at least four copies of itself —
the one back-reference regex of the source, translated directly. -/
def hasRunFive : Str → Bool
  | a :: b :: c :: d :: e :: rest =>
    (isDigitChar a && a = b && b = c && c = d && d = e) || hasRunFive (b :: c :: d :: e :: rest)
  | _ => false

/-- `phone.replace(/[\s\-()]/g, '')`. -/
def cleanPhoneOf (phone : Str) : Str :=
  phone.filter (fun c => !(isSpaceChar c || c = '-' || c = '(' || c = ')'))

/-- `cleanPhone.replace(/\D/g, '')`. -/
def digitsOnlyOf (phone : Str) : Str := (cleanPhoneOf phone).filter isDigitChar

/-- `digitsOnly.slice(-10)`. -/
def lastTenOf (phone : Str) : Str :=
  (digitsOnlyOf phone).drop ((digitsOnlyOf phone).length - 10)

/-- Condition of the foreign-country-code check (first match only). -/
def phoneCondForeign (phone : Str) : Bool :=
  FOREIGN_CODES.any (fun code => startsWithS (cleanPhoneOf phone) code)

/-- Condition of the digit-count check. -/
def phoneCondLength (phone : Str) : Bool :=
  (digitsOnlyOf phone).length < 10 || (digitsOnlyOf phone).length > 15

/-- Condition of the invalid-domestic-pattern check: exactly ten digits with
a first digit outside `['6','7','8','9']`. -/
def phoneCondInvalid (phone : Str) : Bool :=
  (digitsOnlyOf phone).length = 10 &&
    !(['6', '7', '8', '9'].contains ((digitsOnlyOf phone).headD ' '))

/-- Condition of the repeated-digits check:
`new Set(lastTen).size <= 2`. -/
def phoneCondRepeated (phone : Str) : Bool := (lastTenOf phone).dedup.length ≤ 2

/-- Condition of the long-repeated-sequence check: `/(\d)\1{4,}/`. -/
def phoneCondRunFive (phone : Str) : Bool := hasRunFive (digitsOnlyOf phone)

/-- The four unconditional additive checks of `analyzePhone`, in source
order. -/
def phoneChecks (phone : Str) : List Check := [
  (phoneCondForeign phone, "foreign_code", "foreign_country_code", 15),
  (phoneCondLength phone, "length_issue", "suspicious_number_length", 12),
  (phoneCondInvalid phone, "invalid_pattern", "invalid_number_pattern", 20),
  (phoneCondRepeated phone, "repeated_digits", "suspicious_repeated_digits", 15)]

/-- The guarded long-repeated-sequence check: only scored when the
`suspicious_repeated_digits` flag was not already recorded. -/
def runFiveStep (phone : Str) (st : AccState) : AccState :=
  if phoneCondRunFive phone then
    (if st.flags.contains "suspicious_repeated_digits" then st
     else pushHit st "repeated_sequence" "suspicious_repeated_digits" 12)
  else st

/-- The accumulator of `analyzePhone` before clamping. -/
def analyzePhoneSteps (phone : Str) : AccState :=
  runFiveStep phone (applyChecks (phoneChecks phone) initAcc)

/-- `analyzePhone`. -/
def analyzePhone (phone : Str) : AnalysisResult := finishAcc (analyzePhoneSteps phone)

/-- Merge the subordinate analyzer's flags into the accumulated flags,
skipping those already present (`if (!flags.includes(flag)) flags.push(flag)`). -/
def mergeFlags (fs extra : List String) : List String :=
  extra.foldl (fun acc f => if acc.contains f then acc else acc ++ [f]) fs

/-- One message rule: on the first matching alternative add the weight, and
record flag and detail if the flag is new. -/
def messageRuleStep (textLower : Str) (st : AccState) (nr : String × Rule) : AccState :=
  if nr.2.patterns.any (fun p => reTest p textLower) then
    if st.flags.contains nr.2.flag then ⟨st.score + nr.2.weight, st.flags, st.details⟩
    else ⟨st.score + nr.2.weight, st.flags ++ [nr.2.flag],
          st.details ++ [⟨nr.1, nr.2.flag, nr.2.weight⟩]⟩
  else st

/-- Fold one embedded URL into the accumulator:
`riskScore += Math.min(Math.floor(urlResult.riskScore / 2), 30)` and merge
the URL analyzer's flags (no detail entries). -/
def embedUrlStep (st : AccState) (url : Str) : AccState :=
  let urlResult := analyzeUrl url
  ⟨st.score + min (urlResult.riskScore / 2) 30, mergeFlags st.flags urlResult.flags, st.details⟩

/-- Fold one embedded phone number into the accumulator:
`riskScore += Math.min(Math.floor(phoneResult.riskScore / 3), 15)` and merge
the phone analyzer's flags (no detail entries). -/
def embedPhoneStep (st : AccState) (phone : Str) : AccState :=
  let phoneResult := analyzePhone phone
  ⟨st.score + min (phoneResult.riskScore / 3) 15, mergeFlags st.flags phoneResult.flags, st.details⟩

/-- The accumulator of `analyzeMessage` before clamping: the rule catalog in
order, then the first two extracted URLs, then the first two extracted
phone numbers. -/
def analyzeMessageSteps (text : Str) : AccState :=
  ((extractPhones text).take 2).foldl embedPhoneStep
    (((extractUrls text).take 2).foldl embedUrlStep
      (MESSAGE_RULES.foldl (messageRuleStep (lowerStr text)) initAcc))

/-- `analyzeMessage`; `embeddedUrls`/`embeddedPhones` carry the full
extracted lists. -/
def analyzeMessage (text : Str) : AnalysisResult :=
  let st := analyzeMessageSteps text
  { riskScore := min st.score 100,
    riskLevel := calculateRiskLevel (Int.ofNat (min st.score 100)),
    flags := st.flags, details := st.details,
    embeddedUrls := some (extractUrls text),
    embeddedPhones := some (extractPhones text) }

-- ============================================
-- FALLBACK EXPLANATION
-- ============================================

def FLAG_DESCRIPTIONS : List (String × String) := [
  ("urgency_pressure", "Contains urgent language designed to pressure quick decisions"),
  ("otp_kyc_request", "Requests sensitive information like OTP or KYC details"),
  ("account_threat", "Threatens account suspension or blocking"),
  ("lottery_reward_bait", "Promises prizes, rewards, or lottery winnings"),
  ("suspicious_job_offer", "Offers suspicious job with unrealistic earnings"),
  ("authority_impersonation", "May be impersonating banks or government"),
  ("money_request", "Requests money transfer or payment"),
  ("poor_grammar", "Contains suspicious grammar patterns"),
  ("contains_link", "Contains links that need verification"),
  ("ip_based_url", "URL uses IP address instead of domain name"),
  ("suspicious_tld", "Uses suspicious domain extension"),
  ("url_shortener", "Uses URL shortener to hide actual destination"),
  ("brand_spoofing", "May be impersonating a known brand"),
  ("excessive_subdomains", "Has suspicious number of subdomains"),
  ("suspicious_long_url", "Unusually long URL"),
  ("random_string_url", "Contains random characters in URL"),
  ("foreign_country_code", "Phone number from foreign country"),
  ("invalid_number_pattern", "Invalid phone number pattern"),
  ("suspicious_number_length", "Suspicious phone number length"),
  ("suspicious_repeated_digits", "Phone has suspicious repeated digits")]

/-- `FLAG_DESCRIPTIONS[f] || f.replace(/_/g, ' ')`. -/
def describeFlag (f : String) : String :=
  match FLAG_DESCRIPTIONS.find? (fun p => p.1 = f) with
  | some p => p.2
  | none => String.mk (f.data.map (fun c => if c = '_' then ' ' else c))

/-- `generateFallbackExplanation`. -/
def generateFallbackExplanation (riskLevel : RiskLevel) (flags : List String) : String :=
  let parts : List String :=
    [if riskLevel = .high_risk then "⚠️ HIGH RISK: This appears to be a potential scam."
     else if riskLevel = .suspicious then "⚡ SUSPICIOUS: This has some concerning patterns."
     else "✅ LOW RISK: No major red flags detected."]
  let parts := if flags.length > 0 then
      parts ++ ["Detected issues: " ++ String.intercalate "; " ((flags.take 3).map describeFlag) ++ "."]
    else parts
  let parts := if riskLevel ≠ .safe then
      parts ++ ["Do NOT click links, share OTP, or send money. Verify through official channels."]
    else parts
  String.intercalate " " parts

-- ============================================
-- MAIN ANALYZE FUNCTION
-- ============================================

/-- `analyze(input, type?)`.  `type` is an arbitrary runtime string (or
absent); `'auto'`, absence and the empty string (both falsy under `!type`)
trigger detection, any other value is taken as-is; the `switch` routes
`'url'` and `'phone'` and its `default` arm routes everything else to the
message analyzer. -/
def analyze (input : Str) (type? : Option String) : FullAnalysisResult :=
  let normalized := normalizeInput input
  let inputType :=
    match type? with
    | none => detectInputType normalized
    | some t => if t = "auto" || t = "" then detectInputType normalized else t
  let language := detectLanguage normalized
  let analysis :=
    if inputType = "url" then analyzeUrl normalized
    else if inputType = "phone" then analyzePhone normalized
    else analyzeMessage normalized
  { analysis := analysis, inputType := inputType, language := language,
    explanation := generateFallbackExplanation analysis.riskLevel analysis.flags,
    disclaimer := "This is a risk-based analysis, not a verification. Always verify through official channels." }

/-- The `/api/analyze` `POST` handler, restricted to its input validation
and dispatch into the engine (`body.input` missing or falsy → 400
"No input provided"; empty after trim → 400 "Empty input"; otherwise
`analyze(input, body.type || 'auto')`).  The external explanation call can
only replace the `explanation` string and never alters score, level, flags
or details, so it is omitted. -/
def postRoute (input? : Option Str) (type? : Option String) : Except String FullAnalysisResult :=
  match input? with
  | none => .error "No input provided"
  | some raw =>
    if raw = [] then .error "No input provided"
    else
      let input := trimStr raw
      if input = [] then .error "Empty input"
      else .ok (analyze input (some (match type? with
        | none => "auto"
        | some t => if t = "" then "auto" else t)))

-- ============================================
-- Derived views of the analyzers, used to state and prove the
-- behavioural theorems (closed forms of the accumulators above).
-- ============================================

/-- `[x]` when the condition fired, else `[]`. -/
def condList (b : Bool) (x : α) : List α := if b then [x] else []

/-- `n` when the condition fired, else `0`. -/
def condVal (b : Bool) (n : Nat) : Nat := if b then n else 0

/-- Total points of a check sequence. -/
def checksScore (cs : List Check) : Nat := (cs.map (fun c => condVal c.1 c.2.2.2)).sum

/-- Flags pushed by a check sequence, in order. -/
def checksFlags (cs : List Check) : List String := cs.flatMap (fun c => condList c.1 c.2.2.1)

/-- Detail entries pushed by a check sequence, in order. -/
def checksDetails (cs : List Check) : List Detail :=
  cs.flatMap (fun c => condList c.1 (⟨c.2.1, c.2.2.1, c.2.2.2⟩ : Detail))

/-- Number of suspicious path tokens contained in the combined path (each
contributes 12 points). -/
def urlTokenCount (url : Str) : Nat :=
  (SUSPICIOUS_PATH_TOKENS.filter (fun t => containsSub (combinedPathOf url) t)).length

/-- The flags of `analyzeUrl` before the weird-character check. -/
def urlFlagsPre (url : Str) : List String :=
  checksFlags (urlChecksA url) ++ condList (urlTokenCount url != 0) "suspicious_path_token"
    ++ checksFlags (urlChecksB url)

/-- Condition of the weird-character check, including its gate on no
previous flag. -/
def urlCondWeird (url : Str) : Bool :=
  decide (urlFlagsPre url = []) && decide (urlDomain url ≠ []) &&
    decide ((splitChar '.' (urlDomain url)).length ≥ 2) && hasWeirdChar (urlDomain url)

/-- The raw (pre-clamp) score of `analyzeUrl`. -/
def urlRawScore (url : Str) : Nat :=
  checksScore (urlChecksA url) + 12 * urlTokenCount url + checksScore (urlChecksB url)
    + condVal (urlCondWeird url) 6

/-- The flags of `analyzeUrl`. -/
def urlFlags (url : Str) : List String :=
  urlFlagsPre url ++ condList (urlCondWeird url) "weird_domain_chars"

/-- The details of `analyzeUrl`. -/
def urlDetails (url : Str) : List Detail :=
  checksDetails (urlChecksA url)
    ++ condList (urlTokenCount url != 0) (⟨"suspicious_path", "suspicious_path_token", 12⟩ : Detail)
    ++ checksDetails (urlChecksB url)
    ++ condList (urlCondWeird url) (⟨"weird_chars", "weird_domain_chars", 6⟩ : Detail)

/-- Did the second repetition check of `analyzePhone` score? -/
def phoneCondRunScored (phone : Str) : Bool :=
  phoneCondRunFive phone && !phoneCondRepeated phone

/-- The raw (pre-clamp) score of `analyzePhone`. -/
def phoneRawScore (phone : Str) : Nat :=
  checksScore (phoneChecks phone) + condVal (phoneCondRunScored phone) 12

/-- The flags of `analyzePhone`. -/
def phoneFlagsList (phone : Str) : List String :=
  checksFlags (phoneChecks phone) ++ condList (phoneCondRunScored phone) "suspicious_repeated_digits"

/-- The details of `analyzePhone`. -/
def phoneDetailsList (phone : Str) : List Detail :=
  checksDetails (phoneChecks phone)
    ++ condList (phoneCondRunScored phone)
        (⟨"repeated_sequence", "suspicious_repeated_digits", 12⟩ : Detail)

/-- Does a message rule fire on the lower-cased text (some alternative
pattern matches)? -/
def ruleFires (tl : Str) (nr : String × Rule) : Bool :=
  nr.2.patterns.any (fun p => reTest p tl)

/-- The message rules that fire on a text, in catalog order. -/
def firedRules (text : Str) : List (String × Rule) :=
  MESSAGE_RULES.filter (ruleFires (lowerStr text))

/-- Points contributed by the message rule catalog. -/
def messageRulesScore (text : Str) : Nat :=
  ((firedRules text).map (fun nr => nr.2.weight)).sum

/-- Flags recorded by the message rule catalog, in order. -/
def messageRulesFlags (text : Str) : List String :=
  (firedRules text).map (fun nr => nr.2.flag)

/-- Details recorded by the message rule catalog, in order. -/
def messageRulesDetails (text : Str) : List Detail :=
  (firedRules text).map (fun nr => (⟨nr.1, nr.2.flag, nr.2.weight⟩ : Detail))

/-- Damped contribution of the embedded URLs used for scoring (the first
two extracted). -/
def msgUrlContrib (text : Str) : Nat :=
  (((extractUrls text).take 2).map (fun u => min ((analyzeUrl u).riskScore / 2) 30)).sum

/-- Damped contribution of the embedded phone numbers used for scoring (the
first two extracted). -/
def msgPhoneContrib (text : Str) : Nat :=
  (((extractPhones text).take 2).map (fun p => min ((analyzePhone p).riskScore / 3) 15)).sum

/-- The raw (pre-clamp) score of `analyzeMessage`. -/
def msgRawScore (text : Str) : Nat :=
  messageRulesScore text + msgUrlContrib text + msgPhoneContrib text

/-- The flags of `analyzeMessage`: the rule flags, then the deduplicated
merge of the flags of the first two embedded URLs, then of the first two
embedded phone numbers. -/
def msgFlags (text : Str) : List String :=
  mergeFlags
    (mergeFlags (messageRulesFlags text)
      (((extractUrls text).take 2).flatMap (fun u => (analyzeUrl u).flags)))
    (((extractPhones text).take 2).flatMap (fun p => (analyzePhone p).flags))

/-- The claim's notion (spec wording, for claim C6) of an IP-literal host:
four dot-separated non-empty decimal groups. -/
def specIpLiteralHost (host : Str) : Bool :=
  (splitChar '.' host).length = 4 &&
    (splitChar '.' host).all (fun g => !g.isEmpty && g.all isDigitChar)

/-- The canonical order of all flags `analyzeUrl` can push. -/
def urlAllFlags : List String :=
  ["ip_based_url", "punycode_domain", "userinfo_in_url", "no_https", "suspicious_tld",
   "url_shortener", "brand_spoofing", "suspicious_path_token", "excessive_subdomains",
   "suspicious_long_url", "random_string_url", "weird_domain_chars"]

/-- The canonical order of all flags `analyzePhone` can push. -/
def phoneAllFlags : List String :=
  ["foreign_country_code", "suspicious_number_length", "invalid_number_pattern",
   "suspicious_repeated_digits"]

-- ============================================
-- Lemmas: generic properties of the accumulation combinators
-- ============================================

theorem mem_condList {α : Type} (b : Bool) (x y : α) :
    y ∈ condList b x ↔ b = true ∧ y = x := by
  cases b <;> simp [condList]

theorem condList_sublist {α : Type} (b : Bool) (x : α) : (condList b x).Sublist [x] := by
  cases b <;> simp [condList]

theorem condList_map {α β : Type} (b : Bool) (x : α) (f : α → β) :
    (condList b x).map f = condList b (f x) := by
  cases b <;> simp [condList]

theorem condList_eq_nil_iff {α : Type} (b : Bool) (x : α) :
    condList b x = [] ↔ b = false := by
  cases b <;> simp [condList]

theorem condVal_eq_zero_iff (b : Bool) (n : Nat) (h : 0 < n) :
    condVal b n = 0 ↔ b = false := by
  cases b
  · simp [condVal]
  · simp [condVal]
    omega

theorem applyChecks_eq (cs : List Check) (st : AccState) :
    applyChecks cs st =
      ⟨st.score + checksScore cs, st.flags ++ checksFlags cs, st.details ++ checksDetails cs⟩ := by
  induction cs generalizing st with
  | nil => simp [applyChecks, checksScore, checksFlags, checksDetails]
  | cons c rest ih =>
    have hstep : applyChecks (c :: rest) st =
        applyChecks rest (if c.1 then pushHit st c.2.1 c.2.2.1 c.2.2.2 else st) := rfl
    rw [hstep, ih]
    cases hc : c.1 <;>
      simp [pushHit, checksScore, checksFlags, checksDetails, condList, condVal, hc,
            Nat.add_assoc, List.append_assoc]

theorem checksFlags_map_of_details (cs : List Check) :
    (checksDetails cs).map Detail.flag = checksFlags cs := by
  induction cs with
  | nil => simp [checksFlags, checksDetails]
  | cons c rest ih =>
    simp only [checksFlags, checksDetails, List.flatMap_cons, List.map_append] at ih ⊢
    rw [condList_map, ih]

theorem checksFlags_sublist (cs : List Check) :
    (checksFlags cs).Sublist (cs.map (fun c => c.2.2.1)) := by
  induction cs with
  | nil => simp [checksFlags]
  | cons c rest ih =>
    simp only [checksFlags, List.flatMap_cons, List.map_cons]
    exact List.Sublist.append (condList_sublist c.1 c.2.2.1) ih

theorem mem_checksFlags (cs : List Check) (x : String) :
    x ∈ checksFlags cs ↔ ∃ c ∈ cs, c.1 = true ∧ x = c.2.2.1 := by
  induction cs with
  | nil => simp [checksFlags]
  | cons c rest ih =>
    simp only [checksFlags, List.flatMap_cons, List.mem_append, List.mem_cons] at ih ⊢
    rw [mem_condList, ih]
    constructor
    · rintro (⟨hb, hx⟩ | ⟨c', hc', hb, hx⟩)
      · exact ⟨c, Or.inl rfl, hb, hx⟩
      · exact ⟨c', Or.inr hc', hb, hx⟩
    · rintro ⟨c', h | h, hb, hx⟩
      · subst h
        exact Or.inl ⟨hb, hx⟩
      · exact Or.inr ⟨c', h, hb, hx⟩

theorem checksScore_eq_zero_iff (cs : List Check) (hpos : ∀ c ∈ cs, 0 < c.2.2.2) :
    (checksScore cs = 0 ↔ checksFlags cs = []) := by
  induction cs with
  | nil => simp [checksScore, checksFlags]
  | cons c rest ih =>
    have hc := hpos c (by simp)
    have ihr := ih (fun c hc => hpos c (by simp [hc]))
    simp only [checksScore, checksFlags, List.flatMap_cons, List.map_cons, List.sum_cons,
               List.append_eq_nil, Nat.add_eq_zero] at ihr ⊢
    rw [condVal_eq_zero_iff _ _ hc, condList_eq_nil_iff, ihr]

theorem checksScore_lower (cs : List Check) (m : Nat) (hpos : ∀ c ∈ cs, m ≤ c.2.2.2) :
    checksScore cs = 0 ∨ m ≤ checksScore cs := by
  induction cs with
  | nil => simp [checksScore]
  | cons c rest ih =>
    have hc := hpos c (by simp)
    have ihr := ih (fun c hc => hpos c (by simp [hc]))
    simp only [checksScore, List.map_cons, List.sum_cons] at ihr ⊢
    cases hb : c.1
    · simpa [condVal, hb] using ihr
    · rcases ihr with h0 | hm
      · right
        simp only [condVal, hb, if_pos]
        omega
      · right
        simp only [condVal, hb, if_pos]
        omega

-- ============================================
-- Lemmas: the path-token loop and the guarded checks
-- ============================================

theorem pathFold_flagged (cp : Str) (toks : List Str) (st : AccState)
    (h : st.flags.contains "suspicious_path_token" = true) :
    toks.foldl (pathTokenStep cp) st =
      ⟨st.score + 12 * (toks.filter (fun t => containsSub cp t)).length, st.flags, st.details⟩ := by
  induction toks generalizing st with
  | nil => simp
  | cons t rest ih =>
    have hmem : "suspicious_path_token" ∈ st.flags := by simpa using h
    have hstep : (t :: rest).foldl (pathTokenStep cp) st =
        rest.foldl (pathTokenStep cp) (pathTokenStep cp st t) := rfl
    rw [hstep]
    cases hc : containsSub cp t
    · rw [show pathTokenStep cp st t = st by simp [pathTokenStep, hc]]
      rw [ih st h]
      simp [hc]
    · rw [show pathTokenStep cp st t = ⟨st.score + 12, st.flags, st.details⟩ by
        simp [pathTokenStep, hc, hmem]]
      rw [ih ⟨st.score + 12, st.flags, st.details⟩ h]
      simp only [List.filter_cons, hc, if_pos, List.length_cons]
      refine congrArg (fun n => AccState.mk n st.flags st.details) ?_
      omega

theorem pathFold_unflagged (cp : Str) (toks : List Str) (st : AccState)
    (h : st.flags.contains "suspicious_path_token" = false) :
    toks.foldl (pathTokenStep cp) st =
      ⟨st.score + 12 * (toks.filter (fun t => containsSub cp t)).length,
       st.flags ++ condList ((toks.filter (fun t => containsSub cp t)).length != 0) "suspicious_path_token",
       st.details ++ condList ((toks.filter (fun t => containsSub cp t)).length != 0)
          (⟨"suspicious_path", "suspicious_path_token", 12⟩ : Detail)⟩ := by
  induction toks generalizing st with
  | nil => simp [condList]
  | cons t rest ih =>
    have hstep : (t :: rest).foldl (pathTokenStep cp) st =
        rest.foldl (pathTokenStep cp) (pathTokenStep cp st t) := rfl
    rw [hstep]
    cases hc : containsSub cp t
    · rw [show pathTokenStep cp st t = st by simp [pathTokenStep, hc]]
      rw [ih st h]
      simp [hc]
    · have hnotmem : "suspicious_path_token" ∉ st.flags := by simpa using h
      rw [show pathTokenStep cp st t =
          pushHit st "suspicious_path" "suspicious_path_token" 12 by
        simp [pathTokenStep, hc, hnotmem]]
      have hflag : (pushHit st "suspicious_path" "suspicious_path_token" 12).flags.contains
          "suspicious_path_token" = true := by
        simp [pushHit]
      rw [pathFold_flagged cp rest _ hflag]
      simp only [pushHit, List.filter_cons, hc, if_pos, List.length_cons]
      have hne : ((rest.filter (fun t => containsSub cp t)).length + 1 != 0) = true := by
        simp
      rw [hne]
      simp only [condList, if_pos]
      refine congrArg (fun n => AccState.mk n (st.flags ++ ["suspicious_path_token"])
        (st.details ++ [⟨"suspicious_path", "suspicious_path_token", 12⟩])) ?_
      omega

theorem weirdStep_eq (domain : Str) (st : AccState) :
    weirdStep domain st =
      ⟨st.score + condVal (decide (st.flags = []) && decide (domain ≠ []) &&
          decide ((splitChar '.' domain).length ≥ 2) && hasWeirdChar domain) 6,
       st.flags ++ condList (decide (st.flags = []) && decide (domain ≠ []) &&
          decide ((splitChar '.' domain).length ≥ 2) && hasWeirdChar domain) "weird_domain_chars",
       st.details ++ condList (decide (st.flags = []) && decide (domain ≠ []) &&
          decide ((splitChar '.' domain).length ≥ 2) && hasWeirdChar domain)
          (⟨"weird_chars", "weird_domain_chars", 6⟩ : Detail)⟩ := by
  obtain ⟨s, f, d⟩ := st
  by_cases h1 : f = [] <;> by_cases h2 : domain = [] <;>
    by_cases h3 : (splitChar '.' domain).length ≥ 2 <;>
      cases h4 : hasWeirdChar domain <;>
        simp_all [weirdStep, condVal, condList, pushHit]
  all_goals
    have h5 : ¬ 2 ≤ (splitChar '.' domain).length := by omega
    simp [h5]

-- ============================================
-- Lemmas: closed forms of the URL and phone accumulators
-- ============================================

theorem condList_contains (b : Bool) (x y : String) :
    (condList b x).contains y = (b && decide (y = x)) := by
  cases b <;> simp [condList]

theorem contains_append (l1 l2 : List String) (x : String) :
    (l1 ++ l2).contains x = (l1.contains x || l2.contains x) := by
  by_cases h1 : x ∈ l1 <;> by_cases h2 : x ∈ l2 <;> simp [h1, h2]

theorem urlChecksA_no_token (url : Str) :
    (checksFlags (urlChecksA url)).contains "suspicious_path_token" = false := by
  simp [checksFlags, urlChecksA, List.flatMap_cons, contains_append, condList_contains,
        mem_condList]

theorem analyzeUrlSteps_eq (url : Str) :
    analyzeUrlSteps url = ⟨urlRawScore url, urlFlags url, urlDetails url⟩ := by
  have h0 : applyChecks (urlChecksA url) initAcc =
      ⟨checksScore (urlChecksA url), checksFlags (urlChecksA url), checksDetails (urlChecksA url)⟩ := by
    rw [applyChecks_eq]
    simp [initAcc]
  unfold analyzeUrlSteps
  rw [h0, pathFold_unflagged _ _ _ (urlChecksA_no_token url), applyChecks_eq, weirdStep_eq]
  simp only [urlRawScore, urlFlags, urlDetails, urlFlagsPre, urlTokenCount, urlCondWeird,
             List.append_assoc, Nat.add_assoc]

theorem phoneChecks_contains_repeated (phone : Str) :
    (checksFlags (phoneChecks phone)).contains "suspicious_repeated_digits" =
      phoneCondRepeated phone := by
  simp [checksFlags, phoneChecks, List.flatMap_cons, contains_append, condList_contains,
        mem_condList]

theorem analyzePhoneSteps_eq (phone : Str) :
    analyzePhoneSteps phone = ⟨phoneRawScore phone, phoneFlagsList phone, phoneDetailsList phone⟩ := by
  have h0 : applyChecks (phoneChecks phone) initAcc =
      ⟨checksScore (phoneChecks phone), checksFlags (phoneChecks phone), checksDetails (phoneChecks phone)⟩ := by
    rw [applyChecks_eq]
    simp [initAcc]
  unfold analyzePhoneSteps
  rw [h0]
  unfold runFiveStep
  cases h5 : phoneCondRunFive phone
  · simp [phoneRawScore, phoneFlagsList, phoneDetailsList, phoneCondRunScored, h5,
          condVal, condList]
  · rw [if_pos rfl]
    have hcr := phoneChecks_contains_repeated phone
    cases h4 : phoneCondRepeated phone
    · rw [h4] at hcr
      have hnm : "suspicious_repeated_digits" ∉ checksFlags (phoneChecks phone) := by
        simpa using hcr
      rw [if_neg (by simp [hnm])]
      simp [pushHit, phoneRawScore, phoneFlagsList, phoneDetailsList, phoneCondRunScored,
            h4, h5, condVal, condList]
    · rw [h4] at hcr
      have hm : "suspicious_repeated_digits" ∈ checksFlags (phoneChecks phone) := by
        simpa using hcr
      rw [if_pos (by simp [hm])]
      simp [phoneRawScore, phoneFlagsList, phoneDetailsList, phoneCondRunScored,
            h4, h5, condVal, condList]

-- ============================================
-- Lemmas: flag merging
-- ============================================

theorem mergeFlags_append (fs a b : List String) :
    mergeFlags fs (a ++ b) = mergeFlags (mergeFlags fs a) b := by
  simp [mergeFlags, List.foldl_append]

theorem mergeFlags_isPrefixOf (fs extra : List String) : fs <+: mergeFlags fs extra := by
  induction extra generalizing fs with
  | nil => simp [mergeFlags]
  | cons e rest ih =>
    have hstep : mergeFlags fs (e :: rest) =
        mergeFlags (if fs.contains e then fs else fs ++ [e]) rest := rfl
    rw [hstep]
    cases hc : fs.contains e
    · rw [if_neg (by simp [hc])]
      exact (List.prefix_append fs [e]).trans (ih _)
    · rw [if_pos rfl]
      exact ih fs

theorem mergeFlags_eq_nil (fs extra : List String) (h : mergeFlags fs extra = []) :
    fs = [] ∧ extra = [] := by
  have h1 : fs = [] := by
    have := mergeFlags_isPrefixOf fs extra
    rw [h] at this
    exact List.prefix_nil.mp this
  subst h1
  refine ⟨rfl, ?_⟩
  cases extra with
  | nil => rfl
  | cons e rest =>
    exfalso
    have hstep : mergeFlags [] (e :: rest) = mergeFlags [e] rest := rfl
    rw [hstep] at h
    have := mergeFlags_isPrefixOf [e] rest
    rw [h] at this
    exact absurd (List.prefix_nil.mp this) (by simp)

theorem mergeFlags_nodup (fs extra : List String) (h : fs.Nodup) :
    (mergeFlags fs extra).Nodup := by
  induction extra generalizing fs with
  | nil => exact h
  | cons e rest ih =>
    have hstep : mergeFlags fs (e :: rest) =
        mergeFlags (if fs.contains e then fs else fs ++ [e]) rest := rfl
    rw [hstep]
    cases hc : fs.contains e
    · rw [if_neg (by simp [hc])]
      refine ih _ (List.nodup_append.mpr ⟨h, List.nodup_singleton e, ?_⟩)
      intro a ha hb
      have hae : a = e := by simpa using hb
      subst hae
      exact absurd ha (by simpa using hc)
    · rw [if_pos rfl]
      exact ih fs h

theorem mem_mergeFlags (fs extra : List String) (x : String) :
    x ∈ mergeFlags fs extra ↔ x ∈ fs ∨ x ∈ extra := by
  induction extra generalizing fs with
  | nil => simp [mergeFlags]
  | cons e rest ih =>
    have hstep : mergeFlags fs (e :: rest) =
        mergeFlags (if fs.contains e then fs else fs ++ [e]) rest := rfl
    rw [hstep]
    cases hc : fs.contains e
    · rw [if_neg (by simp [hc])]
      rw [ih]
      simp only [List.mem_append, List.mem_singleton, List.mem_cons]
      tauto
    · rw [if_pos rfl, ih]
      have hce : e ∈ fs := by simpa using hc
      simp only [List.mem_cons]
      constructor
      · tauto
      · rintro (h | h | h) <;> try tauto
        subst h
        exact Or.inl hce

-- ============================================
-- Lemmas: the message analyzer
-- ============================================

theorem ruleFold_eq (tl : Str) (rules : List (String × Rule)) (st : AccState)
    (hnew : ∀ nr ∈ rules, st.flags.contains nr.2.flag = false)
    (hdist : rules.Pairwise (fun a b => a.2.flag ≠ b.2.flag)) :
    rules.foldl (messageRuleStep tl) st =
      ⟨st.score + ((rules.filter (ruleFires tl)).map (fun nr => nr.2.weight)).sum,
       st.flags ++ (rules.filter (ruleFires tl)).map (fun nr => nr.2.flag),
       st.details ++ (rules.filter (ruleFires tl)).map
         (fun nr => (⟨nr.1, nr.2.flag, nr.2.weight⟩ : Detail))⟩ := by
  induction rules generalizing st with
  | nil => simp
  | cons nr rest ih =>
    have hstep : (nr :: rest).foldl (messageRuleStep tl) st =
        rest.foldl (messageRuleStep tl) (messageRuleStep tl st nr) := rfl
    rw [hstep]
    rw [List.pairwise_cons] at hdist
    cases hf : ruleFires tl nr
    · rw [show messageRuleStep tl st nr = st by
        simp [messageRuleStep, show nr.2.patterns.any (fun p => reTest p tl) = false from hf]]
      rw [ih st (fun r hr => hnew r (by simp [hr])) hdist.2]
      simp [List.filter_cons, hf]
    · have hcontains := hnew nr (by simp)
      have hnotmem : nr.2.flag ∉ st.flags := by simpa using hcontains
      rw [show messageRuleStep tl st nr =
          ⟨st.score + nr.2.weight, st.flags ++ [nr.2.flag],
           st.details ++ [⟨nr.1, nr.2.flag, nr.2.weight⟩]⟩ by
        simp [messageRuleStep, show nr.2.patterns.any (fun p => reTest p tl) = true from hf,
              hnotmem]]
      rw [ih _ ?_ hdist.2]
      · simp only [List.filter_cons, hf, if_pos, List.map_cons, List.sum_cons,
                   List.append_assoc, List.cons_append, List.nil_append]
        congr 1
        omega
      · intro r hr
        have h1 : st.flags.contains r.2.flag = false := hnew r (by simp [hr])
        have h2 : nr.2.flag ≠ r.2.flag := hdist.1 r hr
        have h3 : r.2.flag ∉ st.flags ++ [nr.2.flag] := by
          simp only [List.mem_append, List.mem_singleton]
          rintro (hmem | hEq)
          · exact absurd hmem (by simpa using h1)
          · exact h2 hEq.symm
        simpa using h3

theorem embedUrlFold_eq (l : List Str) (st : AccState) :
    l.foldl embedUrlStep st =
      ⟨st.score + (l.map (fun u => min ((analyzeUrl u).riskScore / 2) 30)).sum,
       mergeFlags st.flags (l.flatMap (fun u => (analyzeUrl u).flags)),
       st.details⟩ := by
  induction l generalizing st with
  | nil => simp [mergeFlags]
  | cons u rest ih =>
    have hstep : (u :: rest).foldl embedUrlStep st = rest.foldl embedUrlStep (embedUrlStep st u) := rfl
    rw [hstep, ih]
    simp only [embedUrlStep, List.map_cons, List.sum_cons, List.flatMap_cons]
    rw [mergeFlags_append]
    congr 1
    omega

theorem embedPhoneFold_eq (l : List Str) (st : AccState) :
    l.foldl embedPhoneStep st =
      ⟨st.score + (l.map (fun p => min ((analyzePhone p).riskScore / 3) 15)).sum,
       mergeFlags st.flags (l.flatMap (fun p => (analyzePhone p).flags)),
       st.details⟩ := by
  induction l generalizing st with
  | nil => simp [mergeFlags]
  | cons p rest ih =>
    have hstep : (p :: rest).foldl embedPhoneStep st = rest.foldl embedPhoneStep (embedPhoneStep st p) := rfl
    rw [hstep, ih]
    simp only [embedPhoneStep, List.map_cons, List.sum_cons, List.flatMap_cons]
    rw [mergeFlags_append]
    congr 1
    omega

/-- The thirteen message rules raise pairwise distinct flags. -/
theorem messageRules_flags_distinct :
    MESSAGE_RULES.Pairwise (fun a b => a.2.flag ≠ b.2.flag) := by
  simp [MESSAGE_RULES, urgencyRule, otpKycRule, accountThreatRule, lotteryRewardRule,
        jobScamRule, authorityRule, moneyRequestRule, poorGrammarRule, embeddedLinkRule,
        deliveryScamRule, loanScamRule, investmentScamRule, whatsappForwardRule]

theorem analyzeMessageSteps_eq (text : Str) :
    analyzeMessageSteps text =
      ⟨msgRawScore text, msgFlags text, messageRulesDetails text⟩ := by
  unfold analyzeMessageSteps
  rw [ruleFold_eq (lowerStr text) MESSAGE_RULES initAcc (by simp [initAcc])
        messageRules_flags_distinct]
  rw [embedUrlFold_eq, embedPhoneFold_eq]
  simp only [initAcc, List.nil_append, Nat.zero_add]
  simp only [msgRawScore, msgFlags, messageRulesScore, messageRulesFlags, messageRulesDetails,
             msgUrlContrib, msgPhoneContrib, firedRules, Nat.add_assoc]

-- ============================================
-- Lemmas: brand spoofing and flag membership
-- ============================================

theorem endsWithS_refl (s : Str) : endsWithS s s = true := by
  simp [endsWithS, List.isSuffixOf_iff_suffix]

theorem any_or_eq_endsWith (d : Str) (l : List Str) :
    l.any (fun od => endsWithS d od || decide (d = od)) = l.any (fun od => endsWithS d od) := by
  induction l with
  | nil => rfl
  | cons od rest ih =>
    simp only [List.any_cons, ih]
    by_cases h : d = od
    · subst h
      rw [endsWithS_refl]
      simp
    · simp [h]

theorem isOfficialBrand_eq (b d : Str) :
    isOfficialBrand b d =
      [b ++ str ".com", b ++ str ".in", b ++ str ".co.in", b ++ str ".org"].any
        (fun od => endsWithS d od) := by
  unfold isOfficialBrand
  exact any_or_eq_endsWith d _

theorem brandSpoofed_iff (bs : List Str) (d : Str) :
    brandSpoofed bs d =
      bs.any (fun b =>
        (containsSub d b || containsSub (deleet d) b) && !isOfficialBrand b d) := by
  induction bs with
  | nil => rfl
  | cons b rest ih =>
    cases hc : (containsSub d b || containsSub (deleet d) b) <;>
      cases ho : isOfficialBrand b d <;>
        simp [brandSpoofed, hc, ho, ih]

theorem mem_urlFlags_ip (url : Str) :
    "ip_based_url" ∈ urlFlags url ↔ urlCondIp url = true := by
  simp [urlFlags, urlFlagsPre, mem_checksFlags, urlChecksA, urlChecksB, mem_condList]

theorem mem_urlFlags_brand (url : Str) :
    "brand_spoofing" ∈ urlFlags url ↔ urlCondBrand url = true := by
  simp [urlFlags, urlFlagsPre, mem_checksFlags, urlChecksA, urlChecksB, mem_condList]

theorem mem_phoneFlags_repeated (phone : Str) :
    "suspicious_repeated_digits" ∈ phoneFlagsList phone ↔
      (phoneCondRepeated phone = true ∨ phoneCondRunFive phone = true) := by
  cases h4 : phoneCondRepeated phone <;> cases h5 : phoneCondRunFive phone <;>
    simp [phoneFlagsList, mem_checksFlags, phoneChecks, mem_condList, phoneCondRunScored, h4, h5]

-- ============================================
-- Lemmas: flags have no duplicates
-- ============================================

theorem urlFlags_sublist (url : Str) : (urlFlags url).Sublist urlAllFlags := by
  have h1 : (checksFlags (urlChecksA url)).Sublist
      ["ip_based_url", "punycode_domain", "userinfo_in_url", "no_https", "suspicious_tld",
       "url_shortener", "brand_spoofing"] := by
    simpa [urlChecksA] using checksFlags_sublist (urlChecksA url)
  have h2 := condList_sublist (urlTokenCount url != 0) "suspicious_path_token"
  have h3 : (checksFlags (urlChecksB url)).Sublist
      ["excessive_subdomains", "suspicious_long_url", "random_string_url"] := by
    simpa [urlChecksB] using checksFlags_sublist (urlChecksB url)
  have h4 := condList_sublist (urlCondWeird url) "weird_domain_chars"
  have := ((h1.append h2).append h3).append h4
  simpa [urlFlags, urlFlagsPre, urlAllFlags, List.append_assoc] using this

theorem urlFlags_nodup (url : Str) : (urlFlags url).Nodup := by
  have hall : urlAllFlags.Nodup := by decide
  exact List.Nodup.sublist (urlFlags_sublist url) hall

theorem phoneFlags_sublist (phone : Str) : (phoneFlagsList phone).Sublist phoneAllFlags := by
  have c1 := condList_sublist (phoneCondForeign phone) "foreign_country_code"
  have c2 := condList_sublist (phoneCondLength phone) "suspicious_number_length"
  have c3 := condList_sublist (phoneCondInvalid phone) "invalid_number_pattern"
  cases h4 : phoneCondRepeated phone
  · have heq : phoneFlagsList phone =
        condList (phoneCondForeign phone) "foreign_country_code" ++
          (condList (phoneCondLength phone) "suspicious_number_length" ++
            (condList (phoneCondInvalid phone) "invalid_number_pattern" ++
              condList (phoneCondRunFive phone) "suspicious_repeated_digits")) := by
      simp [phoneFlagsList, checksFlags, phoneChecks, condList, phoneCondRunScored, h4,
            List.append_assoc]
    rw [heq]
    exact c1.append (c2.append (c3.append
      (condList_sublist (phoneCondRunFive phone) "suspicious_repeated_digits")))
  · have heq : phoneFlagsList phone =
        condList (phoneCondForeign phone) "foreign_country_code" ++
          (condList (phoneCondLength phone) "suspicious_number_length" ++
            (condList (phoneCondInvalid phone) "invalid_number_pattern" ++
              ["suspicious_repeated_digits"])) := by
      simp [phoneFlagsList, checksFlags, phoneChecks, condList, phoneCondRunScored, h4,
            List.append_assoc]
    rw [heq]
    exact c1.append (c2.append (c3.append (List.Sublist.refl _)))

theorem phoneFlags_nodup (phone : Str) : (phoneFlagsList phone).Nodup := by
  have hall : phoneAllFlags.Nodup := by decide
  exact List.Nodup.sublist (phoneFlags_sublist phone) hall

theorem messageRulesFlags_nodup (text : Str) : (messageRulesFlags text).Nodup := by
  have h1 : (firedRules text).Pairwise (fun a b => a.2.flag ≠ b.2.flag) :=
    List.Pairwise.filter _ messageRules_flags_distinct
  exact List.Pairwise.map _ (fun a b h => h) h1

theorem msgFlags_nodup (text : Str) : (msgFlags text).Nodup :=
  mergeFlags_nodup _ _ (mergeFlags_nodup _ _ (messageRulesFlags_nodup text))

-- ============================================
-- Lemmas: scores are zero exactly when no flag fired
-- ============================================

theorem urlChecksA_pos (url : Str) : ∀ c ∈ urlChecksA url, 8 ≤ c.2.2.2 := by
  simp [urlChecksA]

theorem urlChecksB_pos (url : Str) : ∀ c ∈ urlChecksB url, 10 ≤ c.2.2.2 := by
  simp [urlChecksB]

theorem phoneChecks_pos (phone : Str) : ∀ c ∈ phoneChecks phone, 12 ≤ c.2.2.2 := by
  simp [phoneChecks]

theorem urlRawScore_eq_zero_iff (url : Str) : urlRawScore url = 0 ↔ urlFlags url = [] := by
  have hA : ∀ c ∈ urlChecksA url, 0 < c.2.2.2 := fun c hc => by
    have := urlChecksA_pos url c hc
    omega
  have hB : ∀ c ∈ urlChecksB url, 0 < c.2.2.2 := fun c hc => by
    have := urlChecksB_pos url c hc
    omega
  constructor
  · intro h
    unfold urlRawScore at h
    have h1 : checksScore (urlChecksA url) = 0 := by omega
    have h2 : urlTokenCount url = 0 := by omega
    have h3 : checksScore (urlChecksB url) = 0 := by omega
    have h4 : condVal (urlCondWeird url) 6 = 0 := by omega
    have e1 := (checksScore_eq_zero_iff _ hA).mp h1
    have e3 := (checksScore_eq_zero_iff _ hB).mp h3
    have e4 := (condVal_eq_zero_iff (urlCondWeird url) 6 (by omega)).mp h4
    simp [urlFlags, urlFlagsPre, e1, e3, e4, h2, condList]
  · intro h
    simp only [urlFlags, urlFlagsPre, List.append_assoc, List.append_eq_nil] at h
    obtain ⟨hA1, hTok, hB1, hW⟩ := h
    have h1 : checksScore (urlChecksA url) = 0 := (checksScore_eq_zero_iff _ hA).mpr hA1
    have h3 : checksScore (urlChecksB url) = 0 := (checksScore_eq_zero_iff _ hB).mpr hB1
    have h2 : urlTokenCount url = 0 := by
      have := (condList_eq_nil_iff _ _).mp hTok
      simpa using this
    have h4 : urlCondWeird url = false := (condList_eq_nil_iff _ _).mp hW
    unfold urlRawScore
    simp [h1, h2, h3, h4, condVal]

theorem urlRawScore_lower (url : Str) : urlRawScore url = 0 ∨ 6 ≤ urlRawScore url := by
  have dA := checksScore_lower (urlChecksA url) 8 (urlChecksA_pos url)
  have dB := checksScore_lower (urlChecksB url) 10 (urlChecksB_pos url)
  have dW : condVal (urlCondWeird url) 6 = 0 ∨ 6 ≤ condVal (urlCondWeird url) 6 := by
    cases urlCondWeird url <;> simp [condVal]
  have dT : urlTokenCount url = 0 ∨ 1 ≤ urlTokenCount url := by omega
  unfold urlRawScore
  rcases dA with hA | hA <;> rcases dB with hB | hB <;> rcases dW with hW | hW <;>
    rcases dT with hT | hT <;> omega

theorem phoneRawScore_eq_zero_iff (phone : Str) :
    phoneRawScore phone = 0 ↔ phoneFlagsList phone = [] := by
  have hp : ∀ c ∈ phoneChecks phone, 0 < c.2.2.2 := fun c hc => by
    have := phoneChecks_pos phone c hc
    omega
  constructor
  · intro h
    unfold phoneRawScore at h
    have h1 : checksScore (phoneChecks phone) = 0 := by omega
    have h2 : condVal (phoneCondRunScored phone) 12 = 0 := by omega
    have e1 := (checksScore_eq_zero_iff _ hp).mp h1
    have e2 := (condVal_eq_zero_iff (phoneCondRunScored phone) 12 (by omega)).mp h2
    simp [phoneFlagsList, e1, e2, condList]
  · intro h
    simp only [phoneFlagsList, List.append_eq_nil] at h
    obtain ⟨h1, h2⟩ := h
    have e1 : checksScore (phoneChecks phone) = 0 := (checksScore_eq_zero_iff _ hp).mpr h1
    have e2 : phoneCondRunScored phone = false := (condList_eq_nil_iff _ _).mp h2
    unfold phoneRawScore
    simp [e1, e2, condVal]

theorem phoneRawScore_lower (phone : Str) :
    phoneRawScore phone = 0 ∨ 12 ≤ phoneRawScore phone := by
  have dC := checksScore_lower (phoneChecks phone) 12 (phoneChecks_pos phone)
  have dR : condVal (phoneCondRunScored phone) 12 = 0 ∨
      12 ≤ condVal (phoneCondRunScored phone) 12 := by
    cases phoneCondRunScored phone <;> simp [condVal]
  unfold phoneRawScore
  rcases dC with h1 | h1 <;> rcases dR with h2 | h2 <;> omega

-- ============================================
-- Lemmas: the published results in terms of the raw accumulators
-- ============================================

theorem analyzeUrl_eq (url : Str) :
    analyzeUrl url =
      ⟨min (urlRawScore url) 100, calculateRiskLevel (Int.ofNat (min (urlRawScore url) 100)),
       urlFlags url, urlDetails url, none, none⟩ := by
  rw [show analyzeUrl url = finishAcc (analyzeUrlSteps url) from rfl, analyzeUrlSteps_eq]
  rfl

theorem analyzePhone_eq (phone : Str) :
    analyzePhone phone =
      ⟨min (phoneRawScore phone) 100,
       calculateRiskLevel (Int.ofNat (min (phoneRawScore phone) 100)),
       phoneFlagsList phone, phoneDetailsList phone, none, none⟩ := by
  rw [show analyzePhone phone = finishAcc (analyzePhoneSteps phone) from rfl, analyzePhoneSteps_eq]
  rfl

theorem analyzeMessage_eq (text : Str) :
    analyzeMessage text =
      ⟨min (msgRawScore text) 100, calculateRiskLevel (Int.ofNat (min (msgRawScore text) 100)),
       msgFlags text, messageRulesDetails text,
       some (extractUrls text), some (extractPhones text)⟩ := by
  unfold analyzeMessage
  rw [analyzeMessageSteps_eq]

-- ============================================
-- Lemmas: zero score means no flags, analyzer by analyzer
-- ============================================

theorem analyzeUrl_score_zero_iff (url : Str) :
    (analyzeUrl url).riskScore = 0 ↔ (analyzeUrl url).flags = [] := by
  rw [analyzeUrl_eq]
  simp only
  rw [← urlRawScore_eq_zero_iff]
  omega

theorem analyzePhone_score_zero_iff (phone : Str) :
    (analyzePhone phone).riskScore = 0 ↔ (analyzePhone phone).flags = [] := by
  rw [analyzePhone_eq]
  simp only
  rw [← phoneRawScore_eq_zero_iff]
  omega

theorem analyzeUrl_half_zero_iff (u : Str) :
    (min ((analyzeUrl u).riskScore / 2) 30 = 0) ↔ (analyzeUrl u).flags = [] := by
  rw [analyzeUrl_eq]
  simp only
  rw [← urlRawScore_eq_zero_iff]
  rcases urlRawScore_lower u with h | h <;> omega

theorem analyzePhone_third_zero_iff (p : Str) :
    (min ((analyzePhone p).riskScore / 3) 15 = 0) ↔ (analyzePhone p).flags = [] := by
  rw [analyzePhone_eq]
  simp only
  rw [← phoneRawScore_eq_zero_iff]
  rcases phoneRawScore_lower p with h | h <;> omega

theorem sum_map_eq_zero_iff {α : Type} (l : List α) (f : α → Nat)
    (hf : ∀ x ∈ l, 0 < f x) : ((l.map f).sum = 0) ↔ l = [] := by
  cases l with
  | nil => simp
  | cons a rest =>
    have := hf a (by simp)
    simp only [List.map_cons, List.sum_cons]
    constructor
    · intro h
      omega
    · intro h
      exact absurd h (by simp)

theorem messageRules_weight_pos : ∀ nr ∈ MESSAGE_RULES, 0 < nr.2.weight := by
  simp [MESSAGE_RULES, urgencyRule, otpKycRule, accountThreatRule, lotteryRewardRule,
        jobScamRule, authorityRule, moneyRequestRule, poorGrammarRule, embeddedLinkRule,
        deliveryScamRule, loanScamRule, investmentScamRule, whatsappForwardRule]

theorem messageRulesScore_zero_iff (text : Str) :
    messageRulesScore text = 0 ↔ messageRulesFlags text = [] := by
  unfold messageRulesScore messageRulesFlags
  rw [sum_map_eq_zero_iff (firedRules text) _ (fun nr hnr => by
    refine messageRules_weight_pos nr ?_
    unfold firedRules at hnr
    exact List.mem_of_mem_filter hnr)]
  simp [List.map_eq_nil_iff]

theorem analyzeMessage_score_zero_iff (text : Str) :
    (analyzeMessage text).riskScore = 0 ↔ (analyzeMessage text).flags = [] := by
  rw [analyzeMessage_eq]
  simp only
  have hu : ∀ u : Str, (min ((analyzeUrl u).riskScore / 2) 30 = 0) ↔ (analyzeUrl u).flags = [] :=
    analyzeUrl_half_zero_iff
  have hp : ∀ p : Str, (min ((analyzePhone p).riskScore / 3) 15 = 0) ↔ (analyzePhone p).flags = [] :=
    analyzePhone_third_zero_iff
  constructor
  · intro h
    have hraw : msgRawScore text = 0 := by omega
    unfold msgRawScore at hraw
    have h1 : messageRulesScore text = 0 := by omega
    have h2 : msgUrlContrib text = 0 := by omega
    have h3 : msgPhoneContrib text = 0 := by omega
    have hf1 : messageRulesFlags text = [] := (messageRulesScore_zero_iff text).mp h1
    have hf2 : ((extractUrls text).take 2).flatMap (fun u => (analyzeUrl u).flags) = [] := by
      rw [List.flatMap_eq_nil_iff]
      intro u hu2
      rw [← hu u]
      unfold msgUrlContrib at h2
      have := (List.sum_eq_zero_iff).mp h2 _ (List.mem_map_of_mem _ hu2)
      exact this
    have hf3 : ((extractPhones text).take 2).flatMap (fun p => (analyzePhone p).flags) = [] := by
      rw [List.flatMap_eq_nil_iff]
      intro p hp2
      rw [← hp p]
      unfold msgPhoneContrib at h3
      have := (List.sum_eq_zero_iff).mp h3 _ (List.mem_map_of_mem _ hp2)
      exact this
    unfold msgFlags
    rw [hf1, hf2, hf3]
    rfl
  · intro h
    unfold msgFlags at h
    obtain ⟨h12, h3⟩ := mergeFlags_eq_nil _ _ h
    obtain ⟨h1, h2⟩ := mergeFlags_eq_nil _ _ h12
    have s1 : messageRulesScore text = 0 := (messageRulesScore_zero_iff text).mpr h1
    have s2 : msgUrlContrib text = 0 := by
      unfold msgUrlContrib
      rw [List.sum_eq_zero_iff]
      intro x hx
      rw [List.mem_map] at hx
      obtain ⟨u, hu2, hx⟩ := hx
      rw [← hx, hu u]
      exact (List.flatMap_eq_nil_iff.mp h2) u hu2
    have s3 : msgPhoneContrib text = 0 := by
      unfold msgPhoneContrib
      rw [List.sum_eq_zero_iff]
      intro x hx
      rw [List.mem_map] at hx
      obtain ⟨p, hp2, hx⟩ := hx
      rw [← hx, hp p]
      exact (List.flatMap_eq_nil_iff.mp h3) p hp2
    have : msgRawScore text = 0 := by
      unfold msgRawScore
      omega
    omega

-- ============================================
-- Lemmas: the dispatcher
-- ============================================

theorem dispatch_cases (it : String) (n : Str) :
    (if it = "url" then analyzeUrl n else if it = "phone" then analyzePhone n
     else analyzeMessage n) = analyzeUrl n ∨
    (if it = "url" then analyzeUrl n else if it = "phone" then analyzePhone n
     else analyzeMessage n) = analyzePhone n ∨
    (if it = "url" then analyzeUrl n else if it = "phone" then analyzePhone n
     else analyzeMessage n) = analyzeMessage n := by
  split_ifs <;> tauto

theorem analyze_analysis_cases (input : Str) (t? : Option String) :
    (analyze input t?).analysis = analyzeUrl (normalizeInput input) ∨
    (analyze input t?).analysis = analyzePhone (normalizeInput input) ∨
    (analyze input t?).analysis = analyzeMessage (normalizeInput input) :=
  dispatch_cases _ _

-- ============================================
-- The claims
-- ============================================

/-- C1: `riskLevel` is a pure, total function of `riskScore`: every integer
score at most 30 maps to `safe`, 31–60 to `suspicious`, 61 and above to
`high_risk`; the six sample values behave accordingly; and the `riskLevel`
of every result of `analyzeMessage`, `analyzeUrl`, `analyzePhone` and
`analyze` equals `calculateRiskLevel` of that result's `riskScore`. -/
theorem claim1_riskLevel_pure_function :
    (∀ s : Int, (s ≤ 30 → calculateRiskLevel s = .safe) ∧
       (31 ≤ s → s ≤ 60 → calculateRiskLevel s = .suspicious) ∧
       (61 ≤ s → calculateRiskLevel s = .high_risk)) ∧
    calculateRiskLevel 29 = .safe ∧ calculateRiskLevel 30 = .safe ∧
    calculateRiskLevel 31 = .suspicious ∧ calculateRiskLevel 60 = .suspicious ∧
    calculateRiskLevel 61 = .high_risk ∧ calculateRiskLevel 100 = .high_risk ∧
    (∀ text : Str, (analyzeMessage text).riskLevel =
        calculateRiskLevel (Int.ofNat (analyzeMessage text).riskScore)) ∧
    (∀ url : Str, (analyzeUrl url).riskLevel =
        calculateRiskLevel (Int.ofNat (analyzeUrl url).riskScore)) ∧
    (∀ phone : Str, (analyzePhone phone).riskLevel =
        calculateRiskLevel (Int.ofNat (analyzePhone phone).riskScore)) ∧
    (∀ (input : Str) (t? : Option String), (analyze input t?).analysis.riskLevel =
        calculateRiskLevel (Int.ofNat (analyze input t?).analysis.riskScore)) := by
  refine ⟨?_, by decide, by decide, by decide, by decide, by decide, by decide,
          ?_, ?_, ?_, ?_⟩
  · intro s
    refine ⟨fun h => ?_, fun h1 h2 => ?_, fun h => ?_⟩ <;>
      (unfold calculateRiskLevel
       split_ifs <;> first | rfl | (exfalso; omega))
  · intro text
    rw [analyzeMessage_eq]
  · intro url
    rw [analyzeUrl_eq]
  · intro phone
    rw [analyzePhone_eq]
  · intro input t?
    rcases analyze_analysis_cases input t? with h | h | h <;> rw [h]
    · rw [analyzeUrl_eq]
    · rw [analyzePhone_eq]
    · rw [analyzeMessage_eq]

/-- C1 witness: the theorem applied at the concrete score 29, discharging
the hypothesis `29 ≤ 30`. -/
theorem claim1_witness : calculateRiskLevel 29 = RiskLevel.safe :=
  (claim1_riskLevel_pure_function.1 29).1 (by decide)

/-- C2: every published `riskScore` is the raw accumulated sum truncated by
`min · 100` (never wrapped), hence at most 100; in this embedding scores
live in `ℕ` because every contribution of the engine is a nonnegative
constant, so `0 ≤ riskScore` holds by construction and is stated
explicitly. -/
theorem claim2_riskScore_bounded :
    (∀ text : Str, (analyzeMessage text).riskScore = min (msgRawScore text) 100 ∧
       0 ≤ (analyzeMessage text).riskScore ∧ (analyzeMessage text).riskScore ≤ 100) ∧
    (∀ url : Str, (analyzeUrl url).riskScore = min (urlRawScore url) 100 ∧
       0 ≤ (analyzeUrl url).riskScore ∧ (analyzeUrl url).riskScore ≤ 100) ∧
    (∀ phone : Str, (analyzePhone phone).riskScore = min (phoneRawScore phone) 100 ∧
       0 ≤ (analyzePhone phone).riskScore ∧ (analyzePhone phone).riskScore ≤ 100) ∧
    (∀ (input : Str) (t? : Option String),
       0 ≤ (analyze input t?).analysis.riskScore ∧ (analyze input t?).analysis.riskScore ≤ 100) := by
  refine ⟨fun text => ?_, fun url => ?_, fun phone => ?_, fun input t? => ?_⟩
  · rw [analyzeMessage_eq]
    exact ⟨rfl, Nat.zero_le _, Nat.min_le_right _ _⟩
  · rw [analyzeUrl_eq]
    exact ⟨rfl, Nat.zero_le _, Nat.min_le_right _ _⟩
  · rw [analyzePhone_eq]
    exact ⟨rfl, Nat.zero_le _, Nat.min_le_right _ _⟩
  · rcases analyze_analysis_cases input t? with h | h | h <;> rw [h]
    · rw [analyzeUrl_eq]
      exact ⟨Nat.zero_le _, Nat.min_le_right _ _⟩
    · rw [analyzePhone_eq]
      exact ⟨Nat.zero_le _, Nat.min_le_right _ _⟩
    · rw [analyzeMessage_eq]
      exact ⟨Nat.zero_le _, Nat.min_le_right _ _⟩

/-- C9: the `flags` list of every result of the three analyzers and of
`analyze` contains no duplicate values (each flag at most once; the list is
built by appending each flag the first time its check fires, so order of
first trigger is preserved by construction). -/
theorem claim9_flags_nodup :
    (∀ text : Str, (analyzeMessage text).flags.Nodup) ∧
    (∀ url : Str, (analyzeUrl url).flags.Nodup) ∧
    (∀ phone : Str, (analyzePhone phone).flags.Nodup) ∧
    (∀ (input : Str) (t? : Option String), (analyze input t?).analysis.flags.Nodup) := by
  refine ⟨fun text => ?_, fun url => ?_, fun phone => ?_, fun input t? => ?_⟩
  · rw [analyzeMessage_eq]
    exact msgFlags_nodup text
  · rw [analyzeUrl_eq]
    exact urlFlags_nodup url
  · rw [analyzePhone_eq]
    exact phoneFlags_nodup phone
  · rcases analyze_analysis_cases input t? with h | h | h <;> rw [h]
    · rw [analyzeUrl_eq]
      exact urlFlags_nodup _
    · rw [analyzePhone_eq]
      exact phoneFlags_nodup _
    · rw [analyzeMessage_eq]
      exact msgFlags_nodup _

/-- C10: for each of the three analyzers, the published `riskScore` is zero
exactly when the `flags` list is empty: every point is accompanied by a
flag and every flag by a positive contribution. -/
theorem claim10_zero_score_iff_no_flags (s : Str) :
    ((analyzeMessage s).riskScore = 0 ↔ (analyzeMessage s).flags = []) ∧
    ((analyzeUrl s).riskScore = 0 ↔ (analyzeUrl s).flags = []) ∧
    ((analyzePhone s).riskScore = 0 ↔ (analyzePhone s).flags = []) :=
  ⟨analyzeMessage_score_zero_iff s, analyzeUrl_score_zero_iff s, analyzePhone_score_zero_iff s⟩

-- ============================================
-- Details/flags parallelism (claim C3)
-- ============================================

theorem urlDetails_map_flag (url : Str) :
    (urlDetails url).map Detail.flag = urlFlags url := by
  simp only [urlDetails, urlFlags, urlFlagsPre, List.map_append, checksFlags_map_of_details,
             condList_map, List.append_assoc]

theorem phoneDetails_map_flag (phone : Str) :
    (phoneDetailsList phone).map Detail.flag = phoneFlagsList phone := by
  simp only [phoneDetailsList, phoneFlagsList, List.map_append, checksFlags_map_of_details,
             condList_map]

theorem messageDetails_map_flag (text : Str) :
    (messageRulesDetails text).map Detail.flag = messageRulesFlags text := by
  simp [messageRulesDetails, messageRulesFlags, List.map_map, Function.comp]

/-- C3 counterexample: on the message `"0000000000"` (no rule fires, but the
embedded phone analysis merges two flags with no detail entries) the
`details` list is shorter than the `flags` list, so "details length equals
flags length for every result of `analyzeMessage`" is false. -/
theorem claim3_counterexample :
    ¬ ((analyzeMessage (str "0000000000")).details.length =
        (analyzeMessage (str "0000000000")).flags.length) := by
  decide

/-- C3 (amended): `details` and `flags` are parallel and of equal length for
every result of `analyzeUrl` and `analyzePhone`; for `analyzeMessage` the
`details` entries are parallel to the flags recorded by the message rules,
which form a prefix of the final `flags` list, and flags merged in from
embedded URL/phone analyses carry no detail entries, so
`details.length ≤ flags.length`, with strictness exactly when an embedded
analysis contributed a new flag. -/
theorem claim3_amended :
    (∀ url : Str, (analyzeUrl url).details.map Detail.flag = (analyzeUrl url).flags ∧
       (analyzeUrl url).details.length = (analyzeUrl url).flags.length) ∧
    (∀ phone : Str, (analyzePhone phone).details.map Detail.flag = (analyzePhone phone).flags ∧
       (analyzePhone phone).details.length = (analyzePhone phone).flags.length) ∧
    (∀ text : Str, (analyzeMessage text).details.map Detail.flag = messageRulesFlags text ∧
       (messageRulesFlags text) <+: (analyzeMessage text).flags ∧
       (analyzeMessage text).details.length ≤ (analyzeMessage text).flags.length) := by
  refine ⟨fun url => ?_, fun phone => ?_, fun text => ?_⟩
  · rw [analyzeUrl_eq]
    refine ⟨urlDetails_map_flag url, ?_⟩
    have := congrArg List.length (urlDetails_map_flag url)
    simpa using this
  · rw [analyzePhone_eq]
    refine ⟨phoneDetails_map_flag phone, ?_⟩
    have := congrArg List.length (phoneDetails_map_flag phone)
    simpa using this
  · rw [analyzeMessage_eq]
    refine ⟨messageDetails_map_flag text, ?_, ?_⟩
    · unfold msgFlags
      exact (mergeFlags_isPrefixOf _ _).trans (mergeFlags_isPrefixOf _ _)
    · have h1 : (messageRulesDetails text).length = (messageRulesFlags text).length := by
        have := congrArg List.length (messageDetails_map_flag text)
        simpa using this
      have h2 : (messageRulesFlags text).length ≤ (msgFlags text).length := by
        refine List.IsPrefix.length_le ?_
        unfold msgFlags
        exact (mergeFlags_isPrefixOf _ _).trans (mergeFlags_isPrefixOf _ _)
      simpa [h1] using h2

/-- C4: `analyzeMessage` folds embedded entities exactly as specified: the
first two extracted URLs each contribute `min(urlScore / 2, 30)`, the first
two extracted phone numbers each contribute `min(phoneScore / 3, 15)`, the
subordinate analyzers' flags are merged with deduplication, and the
returned `embeddedUrls`/`embeddedPhones` are the full extracted lists. -/
theorem claim4_embedded_folding (text : Str) :
    (analyzeMessage text).riskScore =
      min (messageRulesScore text
        + (((extractUrls text).take 2).map (fun u => min ((analyzeUrl u).riskScore / 2) 30)).sum
        + (((extractPhones text).take 2).map (fun p => min ((analyzePhone p).riskScore / 3) 15)).sum)
        100 ∧
    (analyzeMessage text).flags =
      mergeFlags
        (mergeFlags (messageRulesFlags text)
          (((extractUrls text).take 2).flatMap (fun u => (analyzeUrl u).flags)))
        (((extractPhones text).take 2).flatMap (fun p => (analyzePhone p).flags)) ∧
    (analyzeMessage text).embeddedUrls = some (extractUrls text) ∧
    (analyzeMessage text).embeddedPhones = some (extractPhones text) := by
  rw [analyzeMessage_eq]
  exact ⟨rfl, rfl, rfl, rfl⟩

-- ============================================
-- Detail membership (for claim C5)
-- ============================================

theorem mem_checksDetails (cs : List Check) (x : Detail) :
    x ∈ checksDetails cs ↔ ∃ c ∈ cs, c.1 = true ∧ x = ⟨c.2.1, c.2.2.1, c.2.2.2⟩ := by
  induction cs with
  | nil => simp [checksDetails]
  | cons c rest ih =>
    simp only [checksDetails, List.flatMap_cons, List.mem_append, List.mem_cons] at ih ⊢
    rw [mem_condList, ih]
    constructor
    · rintro (⟨hb, hx⟩ | ⟨c', hc', hb, hx⟩)
      · exact ⟨c, Or.inl rfl, hb, hx⟩
      · exact ⟨c', Or.inr hc', hb, hx⟩
    · rintro ⟨c', h | h, hb, hx⟩
      · subst h
        exact Or.inl ⟨hb, hx⟩
      · exact Or.inr ⟨c', h, hb, hx⟩

theorem mem_urlDetails_brand (url : Str) :
    (⟨"brand_spoof", "brand_spoofing", 22⟩ : Detail) ∈ urlDetails url ↔
      urlCondBrand url = true := by
  simp [urlDetails, mem_checksDetails, urlChecksA, urlChecksB, mem_condList, Detail.mk.injEq]

/-- C5: the `brand_spoofing` flag (one entry of 22 points, the loop stopping
at the first spoofed brand) is raised exactly when the hostname computed by
`analyzeUrl` contains a known brand directly or after undoing the leet
substitutions (`deleet`), while not ending in one of that brand's
whitelisted official domains; `https://amazon.in` is not flagged,
`http://amaz0n-secure.xyz/login` gets both `brand_spoofing` and
`suspicious_tld`. -/
theorem claim5_brand_spoofing :
    (∀ url : Str,
      ("brand_spoofing" ∈ (analyzeUrl url).flags ↔
        ∃ brand ∈ KNOWN_BRANDS,
          (containsSub (urlDomain url) brand = true ∨
           containsSub (deleet (urlDomain url)) brand = true) ∧
          (∀ od ∈ [brand ++ str ".com", brand ++ str ".in", brand ++ str ".co.in",
                   brand ++ str ".org"], endsWithS (urlDomain url) od = false)) ∧
      ((⟨"brand_spoof", "brand_spoofing", 22⟩ : Detail) ∈ (analyzeUrl url).details ↔
        "brand_spoofing" ∈ (analyzeUrl url).flags)) ∧
    "brand_spoofing" ∉ (analyzeUrl (str "https://amazon.in")).flags ∧
    ("brand_spoofing" ∈ (analyzeUrl (str "http://amaz0n-secure.xyz/login")).flags ∧
     "suspicious_tld" ∈ (analyzeUrl (str "http://amaz0n-secure.xyz/login")).flags) := by
  refine ⟨fun url => ⟨?_, ?_⟩, by decide, by decide, by decide⟩
  · rw [analyzeUrl_eq]
    simp only
    rw [mem_urlFlags_brand]
    unfold urlCondBrand
    rw [brandSpoofed_iff]
    simp only [List.any_eq_true, Bool.and_eq_true, Bool.or_eq_true, Bool.not_eq_true']
    constructor
    · rintro ⟨b, hb, hcont, hoff⟩
      refine ⟨b, hb, hcont, ?_⟩
      rw [isOfficialBrand_eq] at hoff
      intro od hod
      by_contra hend
      have hend' : endsWithS (urlDomain url) od = true := by
        cases h : endsWithS (urlDomain url) od
        · exact absurd h hend
        · rfl
      have : [b ++ str ".com", b ++ str ".in", b ++ str ".co.in", b ++ str ".org"].any
          (fun od => endsWithS (urlDomain url) od) = true := by
        rw [List.any_eq_true]
        exact ⟨od, hod, hend'⟩
      rw [hoff] at this
      exact absurd this (by simp)
    · rintro ⟨b, hb, hcont, hoff⟩
      refine ⟨b, hb, hcont, ?_⟩
      rw [isOfficialBrand_eq]
      cases h : [b ++ str ".com", b ++ str ".in", b ++ str ".co.in", b ++ str ".org"].any
          (fun od => endsWithS (urlDomain url) od)
      · rfl
      · rw [List.any_eq_true] at h
        obtain ⟨od, hod, hend⟩ := h
        exact absurd hend (by rw [hoff od hod]; simp)
  · rw [analyzeUrl_eq]
    simp only
    rw [mem_urlFlags_brand, mem_urlDetails_brand]

/-- C6 counterexample: `"192.168.0.1/verify"` has an IP-literal host (four
dot-separated decimal groups) once `analyzeUrl` extracts its domain, yet no
`ip_based_url` flag is raised and the score stays below 25, because the
check tests the raw lower-cased URL for an `http(s)://`-prefixed IP
pattern, which a scheme-less input lacks. -/
theorem claim6_counterexample :
    specIpLiteralHost (urlDomain (str "192.168.0.1/verify")) = true ∧
    "ip_based_url" ∉ (analyzeUrl (str "192.168.0.1/verify")).flags ∧
    (analyzeUrl (str "192.168.0.1/verify")).riskScore < 25 := by
  decide

/-- C6 (amended): `analyzeUrl` adds 25 points under `ip_based_url` exactly
when the lower-cased URL contains `http://` or `https://` immediately
followed by four dot-separated runs of one to three digits; in particular
`http://192.168.0.1/verify` is flagged with score at least 25, while a
scheme-less URL is not flagged even when its host is an IP literal. -/
theorem claim6_amended :
    (∀ url : Str,
      ("ip_based_url" ∈ (analyzeUrl url).flags ↔ reTest ipUrlRE (lowerStr url) = true)) ∧
    ("ip_based_url" ∈ (analyzeUrl (str "http://192.168.0.1/verify")).flags ∧
     25 ≤ (analyzeUrl (str "http://192.168.0.1/verify")).riskScore) := by
  refine ⟨fun url => ?_, by decide⟩
  rw [analyzeUrl_eq]
  simp only
  rw [mem_urlFlags_ip]
  unfold urlCondIp
  exact Iff.rfl

/-- C7: in `analyzePhone` the raw score decomposes so that the
repeated-digits check (2 or fewer distinct values among the last ten
digits) contributes 15, and the consecutive-run check (some digit repeated
five or more times) contributes its 12 further points exactly when the
first check did not fire — the two are never both scored; the flag is
present exactly when either condition holds, and `"9999999999"` is
flagged. -/
theorem claim7_repeated_digits :
    (∀ phone : Str,
      (analyzePhoneSteps phone).score =
        condVal (phoneCondForeign phone) 15 + condVal (phoneCondLength phone) 12 +
        condVal (phoneCondInvalid phone) 20 + condVal (phoneCondRepeated phone) 15 +
        condVal (phoneCondRunFive phone && !phoneCondRepeated phone) 12 ∧
      ("suspicious_repeated_digits" ∈ (analyzePhone phone).flags ↔
        (phoneCondRepeated phone = true ∨ phoneCondRunFive phone = true))) ∧
    "suspicious_repeated_digits" ∈ (analyzePhone (str "9999999999")).flags := by
  refine ⟨fun phone => ⟨?_, ?_⟩, by decide⟩
  · rw [analyzePhoneSteps_eq]
    simp only [phoneRawScore, checksScore, phoneChecks, List.map_cons, List.map_nil,
               List.sum_cons, List.sum_nil, phoneCondRunScored]
    omega
  · rw [analyzePhone_eq]
    simp only
    exact mem_phoneFlags_repeated phone

/-- C8 counterexample: an explicit unsupported type is not rejected — the
route accepts `type = "banana"`, `analyze` echoes it as `inputType` and
silently routes the input to the message analyzer instead of failing fast
with an "unsupported input type" error. -/
theorem claim8_counterexample :
    (postRoute (some (str "hello")) (some "banana")).isOk = true ∧
    (analyze (str "hello") (some "banana")).inputType = "banana" ∧
    (analyze (str "hello") (some "banana")).analysis = analyzeMessage (str "hello") := by
  refine ⟨rfl, rfl, rfl⟩

/-- C8 (amended): an explicit type value other than `url`, `phone`, `auto`
and the empty string is passed through unvalidated: `analyze` routes the
input to the message analyzer (the `switch` default) and returns the
caller's value as `inputType`; the API route performs no type validation,
so such a request succeeds whenever the input is non-empty. -/
theorem claim8_amended (input : Str) (t : String)
    (h1 : t ≠ "url") (h2 : t ≠ "phone") (h3 : t ≠ "auto") (h4 : t ≠ "") :
    (analyze input (some t)).analysis = analyzeMessage (normalizeInput input) ∧
    (analyze input (some t)).inputType = t ∧
    (input ≠ [] → trimStr input ≠ [] →
      postRoute (some input) (some t) = .ok (analyze (trimStr input) (some t))) := by
  have hcond : (decide (t = "auto") || decide (t = "")) = false := by simp [h3, h4]
  have hIT : (analyze input (some t)).inputType = t := by
    unfold analyze
    simp only [hcond, Bool.false_eq_true, if_false]
  have hAN : (analyze input (some t)).analysis = analyzeMessage (normalizeInput input) := by
    unfold analyze
    simp only [hcond, Bool.false_eq_true, if_false]
    rw [if_neg h1, if_neg h2]
  refine ⟨hAN, hIT, fun hne htr => ?_⟩
  unfold postRoute
  simp only [if_neg hne, if_neg htr, if_neg h4]

/-- C8 witness: the amended theorem applied at input `"hello"` and type
`"banana"`, discharging the four inequality hypotheses. -/
theorem claim8_witness :
    (analyze (str "hello") (some "banana")).analysis =
      analyzeMessage (normalizeInput (str "hello")) ∧
    (analyze (str "hello") (some "banana")).inputType = "banana" := by
  have h := claim8_amended (str "hello") "banana" (by decide) (by decide) (by decide) (by decide)
  exact ⟨h.1, h.2.1⟩

/-- C2 witness: the bound instantiated at the phone `"9999999999"`. -/
theorem claim2_witness :
    (analyzePhone (str "9999999999")).riskScore = min (phoneRawScore (str "9999999999")) 100 ∧
    0 ≤ (analyzePhone (str "9999999999")).riskScore ∧
    (analyzePhone (str "9999999999")).riskScore ≤ 100 :=
  claim2_riskScore_bounded.2.2.1 (str "9999999999")

/-- C3 witness: details/flags parallelism instantiated at the URL
`"https://amazon.in"`. -/
theorem claim3_witness :
    (analyzeUrl (str "https://amazon.in")).details.map Detail.flag =
      (analyzeUrl (str "https://amazon.in")).flags ∧
    (analyzeUrl (str "https://amazon.in")).details.length =
      (analyzeUrl (str "https://amazon.in")).flags.length :=
  claim3_amended.1 (str "https://amazon.in")

/-- C4 witness: the folding equation instantiated at the message
`"0000000000"`. -/
theorem claim4_witness :
    (analyzeMessage (str "0000000000")).embeddedUrls = some (extractUrls (str "0000000000")) ∧
    (analyzeMessage (str "0000000000")).embeddedPhones =
      some (extractPhones (str "0000000000")) :=
  ⟨(claim4_embedded_folding (str "0000000000")).2.2.1,
   (claim4_embedded_folding (str "0000000000")).2.2.2⟩

/-- C5 witness: the whitelisting conjunct at `"https://amazon.in"`. -/
theorem claim5_witness :
    "brand_spoofing" ∉ (analyzeUrl (str "https://amazon.in")).flags :=
  claim5_brand_spoofing.2.1

/-- C6 witness: the flagged scenario conjunct at
`"http://192.168.0.1/verify"`. -/
theorem claim6_witness :
    "ip_based_url" ∈ (analyzeUrl (str "http://192.168.0.1/verify")).flags :=
  claim6_amended.2.1

/-- C7 witness: the flagged scenario conjunct at `"9999999999"`. -/
theorem claim7_witness :
    "suspicious_repeated_digits" ∈ (analyzePhone (str "9999999999")).flags :=
  claim7_repeated_digits.2

/-- C9 witness: no-duplicate flags instantiated at the URL
`"http://amaz0n-secure.xyz/login"`. -/
theorem claim9_witness :
    (analyzeUrl (str "http://amaz0n-secure.xyz/login")).flags.Nodup :=
  claim9_flags_nodup.2.1 (str "http://amaz0n-secure.xyz/login")

/-- C10 witness: the equivalence instantiated at the input `"0123456789"`. -/
theorem claim10_witness :
    ((analyzeMessage (str "0123456789")).riskScore = 0 ↔
      (analyzeMessage (str "0123456789")).flags = []) ∧
    ((analyzeUrl (str "0123456789")).riskScore = 0 ↔
      (analyzeUrl (str "0123456789")).flags = []) ∧
    ((analyzePhone (str "0123456789")).riskScore = 0 ↔
      (analyzePhone (str "0123456789")).flags = []) :=
  claim10_zero_score_iff_no_flags (str "0123456789")

end ScamShield
